import Mathlib

/-!
Verification development for `fms/modules/attention.py` (multi-head attention
with optional grouped-query heads, incremental key/value caching, rotary
position embeddings, and a tensor-parallel wrapper).

Shallow embedding conventions:
* Tensors are nested lists of exact scalars (`ℤ` stands in for the float
  element type; every claim under study is structural — about shapes, list
  concatenation, head indexing, caching and error behaviour — and is
  insensitive to the choice of scalar ring).
* `nn.Linear` is an explicit weight matrix plus optional bias.
* `view(b, l, h, d)` on a `b × l × (h*d)` tensor is a row-major reshape,
  embedded as `chunksOf h d` on each length-`h*d` row.
* `transpose(2, 1)` on a rectangular `b × s × h × d` tensor is the indexed
  transpose `tpose h` applied per batch (defined via lookup with a default,
  which coincides with torch transpose on rectangular inputs — the only
  inputs torch accepts here, since they come out of `view`).
* External kernels that are not part of this repository (the scaled-dot-product
  attention backends, the fused Gaudi rope kernel, the position-encoder
  interface, the numeric cosine/sine routines, and the tensor-parallel
  collectives) are opaque function parameters, matching the spec, which
  treats them as pluggable collaborators with a fixed shape contract.
* Python exceptions and the one potentially non-terminating loop are embedded
  with an explicit `PyErr` result: `Except.error .unboundLocal` models a
  Python `UnboundLocalError`, `.zeroDivision` a `ZeroDivisionError`, and
  `.diverge` marks an infinite loop (the mask-normalization `while` can fail
  to terminate; see `maskLoopFuel`).
-/

/-- Scalar element type of tensors (exact stand-in for floats). -/
abbrev Scalar := ℤ

/-- A 1-d tensor (one embedding row). -/
abbrev Vec := List Scalar

/-- A 2-d tensor. -/
abbrev Mat := List Vec

/-- A 3-d tensor, `batch × seq × emb`. -/
abbrev T3 := List (List Vec)

/-- A 4-d tensor, `batch × heads × seq × headDim` (or `batch × seq × heads × headDim`
before the `transpose(2, 1)` steps). -/
abbrev T4 := List (List Mat)

/-- Dot product of two rows (summand-wise product, truncating at the shorter row,
which never happens on shape-correct inputs). -/
def dot (a b : Vec) : Scalar := (List.zipWith (· * ·) a b).sum

/-- Embedding of `torch.nn.Linear`: a weight matrix (`outFeatures × inFeatures`)
and an optional bias row. -/
structure Linear where
  weight : Mat
  bias : Option Vec
deriving Repr

/-- Apply a linear layer to one input row: `W x + b`. -/
def Linear.apply (l : Linear) (x : Vec) : Vec :=
  let y := l.weight.map (fun row => dot row x)
  match l.bias with
  | none => y
  | some b => List.zipWith (· + ·) y b

/-- Apply a linear layer position-wise to a 3-d tensor (what `self.query(q)` etc.
do to a `batch × seq × emb` input). -/
def linT3 (l : Linear) (t : T3) : T3 := t.map (List.map l.apply)

/-- Row-major reshape of one length-`h*d` row into `h` chunks of length `d`:
the last reshape step of `.view(batch, len, h, d)`. -/
def chunksOf (h d : Nat) (v : Vec) : List Vec :=
  (List.range h).map (fun i => (v.drop (i * d)).take d)

/-- Embedding of `.view(batch, len, h, d)` on a `batch × len × (h*d)` tensor. -/
def viewSplit (h d : Nat) (t : T3) : T4 := t.map (List.map (chunksOf h d))

/-- Indexed transpose of a rectangular `s × h` nested list into an `h × s` one
(element `(j, i)` of the result is element `(i, j)` of the input).  Missing
entries (impossible on rectangular inputs) default to `[]`. -/
def tpose (h : Nat) (t : List (List Vec)) : List (List Vec) :=
  (List.range h).map (fun j => t.map (fun row => (row[j]?).getD []))

/-- Embedding of `.transpose(2, 1)` on a `batch × s × h × d` tensor whose axis-2
length is `h` (swaps seq and head axes, giving `batch × h × s × d`). -/
def tr21 (h : Nat) (t : T4) : T4 := t.map (tpose h)

/-- Embedding of `torch.cat((a, b), dim=2)` on `batch × heads × seq × d` tensors:
concatenation along the sequence axis. -/
def cat2 (a b : T4) : T4 :=
  List.zipWith (fun x y => List.zipWith (fun u v => u ++ v) x y) a b

/-- Number of elements of a 4-d tensor (embedding of `.numel()`). -/
def numel4 (t : T4) : Nat := t.flatten.flatten.flatten.length

/-- Sequence length of a (rectangular) 3-d tensor: `t.size(1)`. -/
def sLen (t : T3) : Nat := (t.headD []).length

/-- Axis-2 length of a (rectangular) 4-d tensor: `t.shape[2]`. -/
def seq4 (t : T4) : Nat := ((t.headD []).headD []).length

/-- Embedding of the grouped-query KV expansion
`t.unsqueeze(2).expand(-1, -1, e, -1, -1).flatten(1, 2)`:
per batch, `unsqueeze(2)` wraps each head in a singleton axis, `expand`
broadcasts that singleton axis to length `e`, and `flatten(1, 2)` merges the
head axis with it, leaving each KV head repeated `e` times contiguously. -/
def expandKV (e : Nat) (t : T4) : T4 :=
  t.map (fun bt =>
    (((bt.map (fun hd => [hd])).map (fun s => s.flatMap (fun hd => List.replicate e hd)))).flatten)

/-- Rectangular-shape predicate for 3-d tensors (`batch × seq × emb`). -/
def Shape3 (t : T3) (b s e : Nat) : Prop :=
  t.length = b ∧ ∀ bt ∈ t, bt.length = s ∧ ∀ r ∈ bt, r.length = e

/-- Rectangular-shape predicate for 4-d tensors (`batch × heads × seq × d`). -/
def Shape4 (t : T4) (b h s d : Nat) : Prop :=
  t.length = b ∧ ∀ bt ∈ t, bt.length = h ∧ ∀ hd ∈ bt, hd.length = s ∧ ∀ r ∈ hd, r.length = d

instance (t : T3) (b s e : Nat) : Decidable (Shape3 t b s e) := by
  unfold Shape3; infer_instance

instance (t : T4) (b h s d : Nat) : Decidable (Shape4 t b h s d) := by
  unfold Shape4; infer_instance

/-- State of `GaudiRotaryEmbedding`: the inverse-frequency row (computed once at
construction by the source from `base` and `dim`; its numeric values are opaque
scalars here and never matter to the properties under study), the cached maximum
sequence length, and the cached cosine/sine tables. -/
structure GaudiRotaryEmbedding where
  invFreq : Vec
  maxSeqLenCached : Nat
  cosCached : Mat
  sinCached : Mat
deriving Repr

/-- Row `i` of the `emb` table of `_set_cos_sin_cache`: the outer product row
`i * invFreq` duplicated (`emb = torch.cat((freqs, freqs), dim=-1)`). -/
def ropeRow (invFreq : Vec) (i : Nat) : Vec :=
  let freqs := invFreq.map (fun f => (i : Scalar) * f)
  freqs ++ freqs

/-- Embedding of `GaudiRotaryEmbedding._set_cos_sin_cache`: regenerate the whole
cosine/sine cache for `seq_len` positions.  The numeric `cos`/`sin` routines
(plus the trailing dtype cast) are the opaque scalar kernels `cosF`/`sinF`,
applied pointwise exactly as in the source. -/
def GaudiRotaryEmbedding.setCosSinCache (s : GaudiRotaryEmbedding)
    (cosF sinF : Scalar → Scalar) (seq_len : Nat) : GaudiRotaryEmbedding :=
  let emb := (List.range seq_len).map (ropeRow s.invFreq)
  { s with
    maxSeqLenCached := seq_len
    cosCached := emb.map (List.map cosF)
    sinCached := emb.map (List.map sinF) }

/-- Embedding of `GaudiRotaryEmbedding.forward`: regenerate the cache when the
requested length exceeds the cached maximum (a buffer mutation, returned here as
the new state), then return the first `seq_len` rows of both tables. -/
def GaudiRotaryEmbedding.forward (s : GaudiRotaryEmbedding)
    (cosF sinF : Scalar → Scalar) (seq_len : Nat) :
    GaudiRotaryEmbedding × (Mat × Mat) :=
  let s2 := if s.maxSeqLenCached < seq_len then s.setCosSinCache cosF sinF seq_len else s
  (s2, (s2.cosCached.take seq_len, s2.sinCached.take seq_len))

/-- Well-formedness of a rotary state: the cached tables are exactly the tables
`_set_cos_sin_cache` generates at the cached maximum length (true from
construction on, since the constructor calls `_set_cos_sin_cache`). -/
def RotWF (cosF sinF : Scalar → Scalar) (s : GaudiRotaryEmbedding) : Prop :=
  s.cosCached = ((List.range s.maxSeqLenCached).map (ropeRow s.invFreq)).map (List.map cosF)
  ∧ s.sinCached = ((List.range s.maxSeqLenCached).map (ropeRow s.invFreq)).map (List.map sinF)

instance (cosF sinF : Scalar → Scalar) (s : GaudiRotaryEmbedding) :
    Decidable (RotWF cosF sinF s) := by
  unfold RotWF; infer_instance

/-- An attention mask: its shape (dimension list) and its flat row-major data.
Inserting a singleton axis changes the shape only, never the data. -/
structure MaskT where
  shape : List Nat
  data : List Scalar
deriving Repr, DecidableEq

/-- Shape effect of `mask.unsqueeze(1)`: insert a singleton axis at position 1.
On a 0-d shape there is no position 1; torch rejects that call, and the
normalization loop can never reach length 4 from it, so leaving the shape
unchanged keeps the loop looping, which is all the embedding needs. -/
def unsq1 (s : List Nat) : List Nat :=
  match s with
  | x :: rest => x :: 1 :: rest
  | [] => []

/-- Embedding of `mask.unsqueeze(1)` on a full mask value. -/
def MaskT.unsqueeze1 (mk : MaskT) : MaskT := { mk with shape := unsq1 mk.shape }

/-- Fuel-indexed embedding of the mask-normalization loop
`while len(mask.size()) != 4: mask = mask.unsqueeze(1)`.
`some` means the loop exited with the given mask within the fuel budget;
`none` means it was still running.  Each iteration grows the dimension count
by one (and a 0-d shape never grows), so fuel 4 is exhaustive: a mask the
loop ever finishes on finishes within 4 iterations, and a mask on which
`maskLoopFuel 4` is `none` keeps the Python loop spinning forever. -/
def maskLoopFuel : Nat → MaskT → Option MaskT
  | 0, mk0 => if mk0.shape.length = 4 then some mk0 else none
  | n + 1, mk0 => if mk0.shape.length = 4 then some mk0 else maskLoopFuel n mk0.unsqueeze1

/-- Python errors and divergence raised by the embedded `forward`.
(`badRef` models a dangling heap reference in the store-level embedding;
real executions never produce it.) -/
inductive PyErr where
  | unboundLocal
  | zeroDivision
  | diverge
  | badRef
deriving Repr, DecidableEq

/-- The mask-normalization step of `forward` (lines 260–265): run the
`while len(mask.size()) != 4` loop, reporting divergence when the loop can
never exit. -/
def maskNorm (mask : Option MaskT) : Except PyErr (Option MaskT) :=
  match mask with
  | none => Except.ok (none : Option MaskT)
  | some mk0 =>
    match maskLoopFuel 4 mk0 with
    | some mk2 => Except.ok (some mk2)
    | none => Except.error PyErr.diverge

/-- Masks on which the normalization loop exits (dimension count between 1
and 4; equivalently `maskLoopFuel` succeeds).  `none` is vacuously fine. -/
def MaskOk (mask : Option MaskT) : Prop :=
  ∀ mk0 ∈ mask, (maskLoopFuel 4 mk0).isSome = true

instance (mask : Option MaskT) : Decidable (MaskOk mask) := by
  unfold MaskOk; infer_instance

/-- Position ids (`torch.LongTensor` of shape `1 × len` after the reshape). -/
abbrev PosIds := List (List Nat)

/-- The external `PositionEncoder` interface (`fms.modules.positions`, outside
this module): two opaque callbacks, exactly the narrow interface the spec
describes.  `adjQK` receives queries/keys in the pre-transpose
`batch × seq × heads × headDim` layout, as at its call site. -/
structure PosEnc where
  adjQK : T4 → T4 → Option PosIds → Option (T4 × T4) → Bool → T4 × T4
  adjMask : Option MaskT → T4 → T4 → Option (T4 × T4) → Bool → Option MaskT

/-- The external kernels `forward` dispatches to: the numeric cosine/sine
routines, the fused Gaudi rope kernel, and the two scaled-dot-product-attention
entry points (the CPU/CUDA one also receives the `attn_algorithm` hint, which
in the source only toggles which fused backend implements the same contract). -/
structure Externals where
  cosF : Scalar → Scalar
  sinF : Scalar → Scalar
  ropeApply : T4 → Mat → Mat → PosIds → T4
  sdpaHpu : T4 → T4 → T4 → Option MaskT → ℚ → Bool → T4
  sdpaCpu : Option String → T4 → T4 → T4 → Option MaskT → ℚ → Bool → T4

/-- The `MultiHeadAttention` module state: configuration, the four projection
layers, the optional position encoder, and the Gaudi rotary sub-module. -/
structure MultiHeadAttention where
  emb_dim : Nat
  emb_kq_per_head : Nat
  emb_v_per_head : Nat
  nheads : Nat
  kvheads : Nat
  p_dropout : ℚ
  use_bias : Bool
  query : Linear
  key : Linear
  value : Linear
  dense : Linear
  position_encoder : Option PosEnc
  rotary_emb : GaudiRotaryEmbedding

/-- The projection stage of `MultiHeadAttention.forward` (the query `view`
plus the device branch, source lines 184–244): split the query projection
into heads, then, per device branch, compute, transpose and possibly rotate
the key/value projections.  Returns the (possibly rotary-updated) module, the
transposed queries, and the freshly computed keys/values — `none` when the
cross-attention-with-cache case skips computing them.  On the non-HPU path
that case never gets that far: the unconditional `keys = keys.transpose(2, 1)`
reads the unbound local `keys` and raises `UnboundLocalError`. -/
def projectQKV (m : MultiHeadAttention) (ext : Externals) (isHpu : Bool)
    (q k v : T3) (position_ids : Option PosIds)
    (past_key_value_state : Option (T4 × T4)) (use_cache is_self : Bool) :
    Except PyErr (MultiHeadAttention × T4 × Option (T4 × T4)) :=
  let queries0 := viewSplit m.nheads m.emb_kq_per_head (linT3 m.query q)
  if isHpu then
    let queriesT := tr21 m.nheads queries0
    if is_self || past_key_value_state.isNone then
      let keys := tr21 m.kvheads (viewSplit m.kvheads m.emb_kq_per_head (linT3 m.key k))
      let values := tr21 m.kvheads (viewSplit m.kvheads m.emb_v_per_head (linT3 m.value v))
      match m.position_encoder with
      | some _ =>
        let L := seq4 keys
        let pids := position_ids.getD [List.range L]
        let (rot2, tabs) := m.rotary_emb.forward ext.cosF ext.sinF L
        Except.ok ({ m with rotary_emb := rot2 },
              ext.ropeApply queriesT tabs.1 tabs.2 pids,
              some (ext.ropeApply keys tabs.1 tabs.2 pids, values))
      | none => Except.ok (m, queriesT, some (keys, values))
    else
      Except.ok (m, queriesT, (none : Option (T4 × T4)))
  else
    if is_self || past_key_value_state.isNone then
      let keys0 := viewSplit m.kvheads m.emb_kq_per_head (linT3 m.key k)
      let values0 := viewSplit m.kvheads m.emb_v_per_head (linT3 m.value v)
      let (queriesA, keysA) :=
        match m.position_encoder with
        | some pe => pe.adjQK queries0 keys0 position_ids past_key_value_state use_cache
        | none => (queries0, keys0)
      Except.ok (m, tr21 m.nheads queriesA,
            some (tr21 m.kvheads keysA, tr21 m.kvheads values0))
    else
      Except.error PyErr.unboundLocal

/-- The cache-merge stage of `MultiHeadAttention.forward` (source lines
247–258): when caching is on and a non-empty prior cache exists, either
concatenate the fresh keys/values onto it along the sequence axis
(self-attention) or reuse the cached pair unchanged (cross-attention);
otherwise pass the fresh tensors through. -/
def mergeKV (use_cache is_self : Bool) (past_key_value_state kvOpt : Option (T4 × T4)) :
    Except PyErr (Option (T4 × T4)) :=
  match past_key_value_state with
  | some (pk, pv) =>
    if use_cache && decide (0 < numel4 pk) then
      if is_self then
        match kvOpt with
        | some (ks, vs) => Except.ok (some (cat2 pk ks, cat2 pv vs))
        | none => Except.error PyErr.unboundLocal
      else
        Except.ok (some (pk, pv))
    else
      Except.ok kvOpt
  | none => Except.ok kvOpt

/-- Embedding of `MultiHeadAttention.forward`.  The device branch is selected by
`isHpu` (`queries.device.type == 'hpu'`).  Returns the updated module (the
rotary cache can regrow on the fused path), the output hidden state, and the
key/value cache (`some` exactly when `use_cache`).  Error values model the
Python exceptions that the corresponding statement would raise:
on the non-HPU path the unconditional `keys = keys.transpose(2, 1)` reads the
local `keys` even when the cross-attention-with-cache case skipped computing
it, which raises `UnboundLocalError`; `expansion = self.nheads // self.kvheads`
raises `ZeroDivisionError` when `kvheads = 0`; an attention mask whose
dimension count can never reach 4 keeps the normalization loop running
forever (`PyErr.diverge`). -/
def MultiHeadAttention.forward (m : MultiHeadAttention) (ext : Externals)
    (training isHpu : Bool) (q k v : T3)
    (mask : Option MaskT) (position_ids : Option PosIds)
    (attn_algorithm : Option String)
    (past_key_value_state : Option (T4 × T4))
    (use_cache is_self is_causal_mask : Bool) :
    Except PyErr (MultiHeadAttention × T3 × Option (T4 × T4)) := do
  let q_len := sLen q
  let (m1, queries1, kvOpt) ←
    projectQKV m ext isHpu q k v position_ids past_key_value_state use_cache is_self
  let kvOpt2 ← mergeKV use_cache is_self past_key_value_state kvOpt
  let mask2 ← maskNorm mask
  let attn_mask ←
    match m.position_encoder with
    | some pe =>
      match kvOpt2 with
      | some (ks, _) => pure (pe.adjMask mask2 queries1 ks past_key_value_state use_cache)
      | none => Except.error PyErr.unboundLocal
    | none => pure mask2
  if m.kvheads = 0 then
    Except.error PyErr.zeroDivision
  else do
    let expansion := m.nheads / m.kvheads
    let (keysF, valuesF) ←
      match kvOpt2 with
      | some (ks, vs) => pure (ks, vs)
      | none => Except.error PyErr.unboundLocal
    let keys_e := if expansion ≠ 1 then expandKV expansion keysF else keysF
    let values_e := if expansion ≠ 1 then expandKV expansion valuesF else valuesF
    let dropP : ℚ := if training then m.p_dropout else 0
    let attn :=
      if isHpu then ext.sdpaHpu queries1 keys_e values_e attn_mask dropP is_causal_mask
      else ext.sdpaCpu attn_algorithm queries1 keys_e values_e attn_mask dropP is_causal_mask
    let attn2 := attn.map (fun bt => (tpose q_len bt).map List.flatten)
    let out := linT3 m.dense attn2
    if use_cache then
      pure (m1, out, some (keysF, valuesF))
    else
      pure (m1, out, (none : Option (T4 × T4)))

/-- Head-count data derived by `TPMultiHeadAttention.__init__`: the local head
counts passed down to `MultiHeadAttention.__init__` plus the recorded
pre-partition counts.  (`assert torch.distributed.is_initialized()` and the
rank lookup are external runtime preconditions with no head-count content.) -/
structure TPHeadCfg where
  nheads : Nat
  kvheads : Nat
  pre_tp_nheads : Nat
  pre_tp_kvheads : Nat
  world_size : Nat
deriving Repr, DecidableEq

/-- Embedding of the head-count logic of `TPMultiHeadAttention.__init__`:
the two asserts run first, in source order, and only then is the underlying
`MultiHeadAttention` constructed with `nheads // world_size` local query heads
and `kvheads // world_size` (or `1`, when `kvheads < world_size`) local KV
heads.  An `Except.error` is the failed assert, raised before any other
initialization effect.  (With `kvheads = 0` Python raises `ZeroDivisionError`
inside the second assert expression; Lean's `world_size % 0 = world_size ≠ 0`
likewise rejects the configuration, so construction fails either way.) -/
def TPMultiHeadAttention.init (nheads kvheads world_size : Nat) : Except String TPHeadCfg :=
  if ¬ (nheads % world_size = 0) then
    Except.error "The number of heads must be divisible by world size"
  else if ¬ ((world_size ≤ kvheads ∧ kvheads % world_size = 0)
             ∨ (kvheads < world_size ∧ world_size % kvheads = 0)) then
    Except.error "the kv heads must be divisible by the world size or the world size must be divisible by kv heads"
  else
    Except.ok
      { nheads := nheads / world_size
        kvheads := if world_size ≤ kvheads then kvheads / world_size else 1
        pre_tp_nheads := nheads
        pre_tp_kvheads := kvheads
        world_size := world_size }

/-- Embedding of `TPMultiHeadAttention.forward`.  The tensor-parallel
collectives are the opaque functions `copyF`
(`copy_to_tensor_model_parallel_region`) and `reduceF`
(`reduce_from_tensor_model_parallel_region`, the cross-worker sum-reduction).
The three inputs are passed through `copyF`, the local Attention Core runs
unchanged, and only the output tensor is reduced — the key/value cache is
returned exactly as the local core produced it. -/
def TPMultiHeadAttention.forward (m : MultiHeadAttention) (ext : Externals)
    (copyF reduceF : T3 → T3) (training isHpu : Bool) (q k v : T3)
    (mask : Option MaskT) (position_ids : Option PosIds)
    (attn_algorithm : Option String)
    (past_key_value_state : Option (T4 × T4))
    (use_cache is_self is_causal_mask : Bool) :
    Except PyErr (MultiHeadAttention × T3 × Option (T4 × T4)) := do
  let q_par := copyF q
  let k_par := copyF k
  let v_par := copyF v
  let (m2, out_par, cache) ←
    MultiHeadAttention.forward m ext training isHpu q_par k_par v_par mask
      position_ids attn_algorithm past_key_value_state use_cache is_self is_causal_mask
  if use_cache then
    pure (m2, reduceF out_par, cache)
  else
    pure (m2, reduceF out_par, (none : Option (T4 × T4)))

/-- Errors of the weight-loading path: the unused-weights `AttributeError`
(carrying the offending key names) and the lookup failure the extraction
helper raises when a searched pattern does not match exactly one entry. -/
inductive LoadErr where
  | unusedKeys (keys : List String)
  | weightNotFound (comp kind : String)
deriving Repr, DecidableEq

/-- Modelled from the spec: `TPModule._get_sd_weight` is defined in
`fms/modules/tp.py`, which is not part of this source snapshot.  Per the spec
(sections 4.3 and 6), the loader "extracts the four projection weights (and
biases, if enabled) by name suffix" from a flat name-to-tensor mapping whose
keys follow the `<component>.<weight|bias>` naming convention, recording each
consumed key in `used_keys`.  The helper therefore returns the unique entry
whose name ends in `<comp>.<kind>`, appending its key to the used set, and
fails when no unique such entry exists. -/
def getSdWeight {W : Type} (tensor_values : List (String × W)) (used_keys : List String)
    (comp kind : String) : Except LoadErr (W × List String) :=
  match tensor_values.filter (fun kv => (comp ++ "." ++ kind).data.isSuffixOf kv.1.data) with
  | [kv] => Except.ok (kv.2, used_keys ++ [kv.1])
  | _ => Except.error (LoadErr.weightNotFound comp kind)

/-- The sharded module parameters owned by one worker (bias entries are `none`
when the layer was built without bias). -/
structure TPAttnParams (W : Type) where
  query : W
  key : W
  value : W
  dense : W
  query_bias : Option W
  key_bias : Option W
  value_bias : Option W
  dense_bias : Option W
deriving Repr, DecidableEq

/-- Apply the opaque shard-copy to a bias slot when both the destination slot
and the loaded bias are present. -/
def shardBias {W : Type} (shardF : W → W → Nat → List Nat → Bool → W)
    (pb : Option W) (nb : Option W) (dim : Nat) (sizes : List Nat) (flag : Bool) : Option W :=
  match pb, nb with
  | some pbv, some nbv => some (shardF pbv nbv dim sizes flag)
  | _, _ => pb

/-- Stage 1 of `TPMultiHeadAttention.load_weights` ("1. Grab the weights from
tensor_values"): the four weight extractions, plus the four bias extractions
when `use_bias`, each threading the `used_keys` set exactly as the source
does.  Returns the extracted weights, the extracted biases, and the final
used-key set. -/
def extractWeights {W : Type} (use_bias : Bool) (tensor_values : List (String × W)) :
    Except LoadErr ((W × W × W × W) × (Option W × Option W × Option W × Option W) × List String) := do
  let (query_weight, u1) ← getSdWeight tensor_values [] "query" "weight"
  let (key_weight, u2) ← getSdWeight tensor_values u1 "key" "weight"
  let (value_weight, u3) ← getSdWeight tensor_values u2 "value" "weight"
  let (dense_weight, u4) ← getSdWeight tensor_values u3 "dense" "weight"
  if use_bias then do
    let (qb, u5) ← getSdWeight tensor_values u4 "query" "bias"
    let (kb, u6) ← getSdWeight tensor_values u5 "key" "bias"
    let (vb, u7) ← getSdWeight tensor_values u6 "value" "bias"
    let (db, u8) ← getSdWeight tensor_values u7 "dense" "bias"
    pure ((query_weight, key_weight, value_weight, dense_weight),
          (some qb, some kb, some vb, some db), u8)
  else
    pure ((query_weight, key_weight, value_weight, dense_weight),
          ((none : Option W), (none : Option W), (none : Option W), (none : Option W)), u4)

/-- Embedding of `TPMultiHeadAttention.load_weights`.  Stage 1
(`extractWeights`) extracts the recognized weights, stage 2 raises the
unused-weights `AttributeError` when the mapping holds more entries than the
recognized count (listing all keys not in `used_keys`), and only then does
stage 3 perform the shard copies — so an error leaves every module parameter
untouched (the input `p` flows to the caller only through `Except.ok`).
`shardF` is the opaque `TPModule.sharded_copy` (modelled from the spec:
`fms/modules/tp.py` is not part of this snapshot); it receives the
destination parameter, the full tensor, the shard axis, the
max-partition-sizes list, and the trailing flag that the `dense.bias` call
sets to `False`. -/
def TPMultiHeadAttention.load_weights {W : Type}
    (shardF : W → W → Nat → List Nat → Bool → W)
    (use_bias : Bool) (pre_tp_nheads pre_tp_kvheads world_size : Nat)
    (p : TPAttnParams W) (tensor_values : List (String × W)) :
    Except LoadErr (TPAttnParams W) := do
  let (wts, biases, used_keys) ← extractWeights use_bias tensor_values
  let (query_weight, key_weight, value_weight, dense_weight) := wts
  if tensor_values.length > (if use_bias then 8 else 4) then
    Except.error (LoadErr.unusedKeys
      ((tensor_values.map Prod.fst).filter (fun name => ¬ used_keys.contains name)))
  else
    pure
      { query := shardF p.query query_weight 0 [pre_tp_nheads] true
        key := shardF p.key key_weight 0 [pre_tp_kvheads] true
        value := shardF p.value value_weight 0 [pre_tp_kvheads] true
        dense := shardF p.dense dense_weight 1 [world_size] true
        query_bias := shardBias shardF p.query_bias biases.1 0 [pre_tp_nheads] true
        key_bias := shardBias shardF p.key_bias biases.2.1 0 [pre_tp_kvheads] true
        value_bias := shardBias shardF p.value_bias biases.2.2.1 0 [pre_tp_kvheads] true
        dense_bias := shardBias shardF p.dense_bias biases.2.2.2 1 [world_size] false }

/-- A runtime tensor object held on the Python heap (3-d or 4-d). -/
inductive Val where
  | v3 (t : T3)
  | v4 (t : T4)
deriving Repr, DecidableEq

/-- The heap of tensor objects: a cell per allocated tensor, addressed by index. -/
abbrev Store := List Val

/-- Allocate a fresh tensor object, returning the grown store and the new
reference.  Every torch operation `forward` performs (linear projection,
`view`, `transpose`, `cat`, `unsqueeze`/`expand`, the attention kernels,
`contiguous`) returns a fresh tensor object (or a fresh view object) rather
than mutating an existing one, so allocation is the only store effect the
embedded forward uses. -/
def salloc (st : Store) (x : Val) : Store × Nat := (st ++ [x], st.length)

/-- Read the tensor object at a reference. -/
def sread (st : Store) (r : Nat) : Option Val := st[r]?

/-- Overwrite the tensor object at a reference: the store effect an in-place
torch mutation (`copy_`, `index_put_`, an in-place `cat` into preallocated
storage, …) would have.  The embedded forward never invokes it — the source
contains no in-place tensor operation — which is exactly what the frame
property over the caller-held cache checks. -/
def swrite (st : Store) (r : Nat) (x : Val) : Store := st.set r x

/-- Store-level embedding of `MultiHeadAttention.forward`: the same control
flow as the value-level `MultiHeadAttention.forward`, with every tensor-
producing statement allocating a fresh cell whose payload is computed by the
corresponding value-level stage function.  Inputs and the caller-held
key/value cache are passed as references into the store; the result is the
final store, the updated module, the reference of the output hidden state,
and the references returned as the cache pair.  In the cross-attention reuse
branch (`keys = past_key_value_state[0]`) the returned references alias the
caller's — a plain Python rebinding — while the self-attention branch
allocates the `torch.cat` results afresh. -/
def MultiHeadAttention.forwardStore (m : MultiHeadAttention) (ext : Externals)
    (training isHpu : Bool) (st0 : Store) (rq rk rv : Nat)
    (mask : Option MaskT) (position_ids : Option PosIds)
    (attn_algorithm : Option String)
    (past_key_value_state : Option (Nat × Nat))
    (use_cache is_self is_causal_mask : Bool) :
    Except PyErr (Store × MultiHeadAttention × Nat × Option (Nat × Nat)) := do
  let q ← match sread st0 rq with
    | some (Val.v3 t) => pure t
    | _ => Except.error PyErr.badRef
  let k ← match sread st0 rk with
    | some (Val.v3 t) => pure t
    | _ => Except.error PyErr.badRef
  let v ← match sread st0 rv with
    | some (Val.v3 t) => pure t
    | _ => Except.error PyErr.badRef
  let pastVals ← match past_key_value_state with
    | none => pure (none : Option (T4 × T4))
    | some (rpk, rpv) =>
      match sread st0 rpk, sread st0 rpv with
      | some (Val.v4 pk), some (Val.v4 pv) => pure (some (pk, pv))
      | _, _ => Except.error PyErr.badRef
  let q_len := sLen q
  let (st1, _rQ0) := salloc st0 (Val.v4 (viewSplit m.nheads m.emb_kq_per_head (linT3 m.query q)))
  let queries0 := viewSplit m.nheads m.emb_kq_per_head (linT3 m.query q)
  let (m1, st2, queries1, kvOpt) ←
    if isHpu then do
      let queriesT := tr21 m.nheads queries0
      let (st1a, _) := salloc st1 (Val.v4 queriesT)
      if is_self || past_key_value_state.isNone then
        let keys := tr21 m.kvheads (viewSplit m.kvheads m.emb_kq_per_head (linT3 m.key k))
        let values := tr21 m.kvheads (viewSplit m.kvheads m.emb_v_per_head (linT3 m.value v))
        let (st1b, rKeys) := salloc st1a (Val.v4 keys)
        let (st1c, rValues) := salloc st1b (Val.v4 values)
        match m.position_encoder with
        | some _ =>
          let L := seq4 keys
          let pids := position_ids.getD [List.range L]
          let (rot2, tabs) := m.rotary_emb.forward ext.cosF ext.sinF L
          let q2 := ext.ropeApply queriesT tabs.1 tabs.2 pids
          let k2 := ext.ropeApply keys tabs.1 tabs.2 pids
          let (st1d, _) := salloc st1c (Val.v4 q2)
          let (st1e, rK2) := salloc st1d (Val.v4 k2)
          pure ({ m with rotary_emb := rot2 }, st1e, q2, some ((rK2, k2), (rValues, values)))
        | none => pure (m, st1c, queriesT, some ((rKeys, keys), (rValues, values)))
      else
        pure (m, st1a, queriesT, (none : Option ((Nat × T4) × (Nat × T4))))
    else
      if is_self || past_key_value_state.isNone then
        let keys0 := viewSplit m.kvheads m.emb_kq_per_head (linT3 m.key k)
        let values0 := viewSplit m.kvheads m.emb_v_per_head (linT3 m.value v)
        let (st1a, _) := salloc st1 (Val.v4 keys0)
        let (st1b, _) := salloc st1a (Val.v4 values0)
        let (queriesA, keysA, st1c) :=
          match m.position_encoder with
          | some pe =>
            let qk := pe.adjQK queries0 keys0 position_ids
              (pastVals) use_cache
            let (stx, _) := salloc st1b (Val.v4 qk.1)
            let (sty, _) := salloc stx (Val.v4 qk.2)
            (qk.1, qk.2, sty)
          | none => (queries0, keys0, st1b)
        let queries2 := tr21 m.nheads queriesA
        let keys2 := tr21 m.kvheads keysA
        let values2 := tr21 m.kvheads values0
        let (st1d, _) := salloc st1c (Val.v4 queries2)
        let (st1e, rKeys2) := salloc st1d (Val.v4 keys2)
        let (st1f, rValues2) := salloc st1e (Val.v4 values2)
        pure (m, st1f, queries2, some ((rKeys2, keys2), (rValues2, values2)))
      else
        Except.error PyErr.unboundLocal
  let (st3, kvOpt2) ←
    match past_key_value_state, pastVals with
    | some (rpk, rpv), some (pk, pv) =>
      if use_cache && decide (0 < numel4 pk) then
        if is_self then
          match kvOpt with
          | some ((_, ks), (_, vs)) =>
            let (sta, rCK) := salloc st2 (Val.v4 (cat2 pk ks))
            let (stb, rCV) := salloc sta (Val.v4 (cat2 pv vs))
            pure (stb, some ((rCK, cat2 pk ks), (rCV, cat2 pv vs)))
          | none => Except.error PyErr.unboundLocal
        else
          pure (st2, some ((rpk, pk), (rpv, pv)))
      else
        pure (st2, kvOpt)
    | _, _ => pure (st2, kvOpt)
  let mask2 ← maskNorm mask
  let attn_mask ←
    match m.position_encoder with
    | some pe =>
      match kvOpt2 with
      | some ((_, ks), _) => pure (pe.adjMask mask2 queries1 ks pastVals use_cache)
      | none => Except.error PyErr.unboundLocal
    | none => pure mask2
  if m.kvheads = 0 then
    Except.error PyErr.zeroDivision
  else do
    let expansion := m.nheads / m.kvheads
    let (rKeysF, keysF, rValuesF, valuesF) ←
      match kvOpt2 with
      | some ((rks, ks), (rvs, vs)) => pure (rks, ks, rvs, vs)
      | none => Except.error PyErr.unboundLocal
    let (keys_e, values_e, st4) :=
      if expansion ≠ 1 then
        let ke := expandKV expansion keysF
        let ve := expandKV expansion valuesF
        let (sta, _) := salloc st3 (Val.v4 ke)
        let (stb, _) := salloc sta (Val.v4 ve)
        (ke, ve, stb)
      else (keysF, valuesF, st3)
    let dropP : ℚ := if training then m.p_dropout else 0
    let attn :=
      if isHpu then ext.sdpaHpu queries1 keys_e values_e attn_mask dropP is_causal_mask
      else ext.sdpaCpu attn_algorithm queries1 keys_e values_e attn_mask dropP is_causal_mask
    let (st5, _) := salloc st4 (Val.v4 attn)
    let attn2 := attn.map (fun bt => (tpose q_len bt).map List.flatten)
    let (st6, _) := salloc st5 (Val.v3 attn2)
    let out := linT3 m.dense attn2
    let (st7, rOut) := salloc st6 (Val.v3 out)
    if use_cache then
      pure (st7, m1, rOut, some (rKeysF, rValuesF))
    else
      pure (st7, m1, rOut, (none : Option (Nat × Nat)))

/-- Well-formedness of one projection layer wrt its output-feature count
(`nn.Linear(emb_dim, outF)`: the weight has `outF` rows, and the bias, when
present, `outF` entries). -/
def Linear.wf (l : Linear) (outF : Nat) : Prop :=
  l.weight.length = outF ∧ ∀ bb ∈ l.bias, bb.length = outF

instance (l : Linear) (outF : Nat) : Decidable (l.wf outF) := by
  unfold Linear.wf; infer_instance

/-- Well-formedness of a `MultiHeadAttention` module: the projection layers
have the row counts `__init__` gives them, and the head counts and per-head
dimensions are positive (zero-head or zero-dimension modules are degenerate:
with `kvheads = 0` `forward` raises `ZeroDivisionError` at the expansion
step). -/
def MHAwf (m : MultiHeadAttention) : Prop :=
  m.query.wf (m.nheads * m.emb_kq_per_head)
  ∧ m.key.wf (m.kvheads * m.emb_kq_per_head)
  ∧ m.value.wf (m.kvheads * m.emb_v_per_head)
  ∧ 1 ≤ m.nheads ∧ 1 ≤ m.kvheads ∧ 1 ≤ m.emb_kq_per_head ∧ 1 ≤ m.emb_v_per_head

instance (m : MultiHeadAttention) : Decidable (MHAwf m) := by
  unfold MHAwf; infer_instance

/-- Shape contract of the external fused rope kernel: it rotates values in
place of shape, returning a tensor of the shape of its input (the documented
contract of `RotaryPosEmbeddingHelperV2.apply`). -/
def RopeShapeOk (ext : Externals) : Prop :=
  ∀ b h s d t c sn p, Shape4 t b h s d → Shape4 (ext.ropeApply t c sn p) b h s d

/-- Shape contract of the external position-encoder interface: `adjusted_qk`
returns adjusted queries and keys of the shapes it was given (the documented
contract of `PositionEncoder.adjusted_qk`). -/
def PeShapeOk (pe : PosEnc) : Prop :=
  ∀ qs ks pids pkv uc b1 s1 h1 d1 b2 s2 h2 d2,
    Shape4 qs b1 s1 h1 d1 → Shape4 ks b2 s2 h2 d2 →
      Shape4 (pe.adjQK qs ks pids pkv uc).1 b1 s1 h1 d1
      ∧ Shape4 (pe.adjQK qs ks pids pkv uc).2 b2 s2 h2 d2

/-- Shape contract of the module's configured position encoder, if any. -/
def PeOk (m : MultiHeadAttention) : Prop := ∀ pe ∈ m.position_encoder, PeShapeOk pe

/-- A concrete instantiation of the external kernels, used to evaluate the
embedded forward on closed inputs: identity rope, attention kernels that
echo their query input. -/
def idExternals : Externals where
  cosF := id
  sinF := id
  ropeApply := fun t _ _ _ => t
  sdpaHpu := fun qs _ _ _ _ _ => qs
  sdpaCpu := fun _ qs _ _ _ _ _ => qs

/-- A concrete miniature module (all embedding dimensions 1, identity 1×1
projection weights, no bias, no position encoder) with the given
query/KV head counts, used to evaluate the embedded forward on closed
inputs. -/
def sampleMHA (nh kv : Nat) : MultiHeadAttention where
  emb_dim := 1
  emb_kq_per_head := 1
  emb_v_per_head := 1
  nheads := nh
  kvheads := kv
  p_dropout := 0
  use_bias := false
  query := ⟨[[1]], none⟩
  key := ⟨[[1]], none⟩
  value := ⟨[[1]], none⟩
  dense := ⟨[[1]], none⟩
  position_encoder := none
  rotary_emb := ⟨[], 0, [], []⟩

/-- A concrete rotary state (inverse frequencies `[1]`, two cached rows
generated with identity numeric kernels), used to evaluate the rotary cache
on closed inputs. -/
def sRot : GaudiRotaryEmbedding := ⟨[1], 2, [[0, 0], [1, 1]], [[0, 0], [1, 1]]⟩

/-! ### Helper lemmas -/

theorem maskLoopFuel_done (mk0 : MaskT) (h : mk0.shape.length = 4) :
    ∀ n, maskLoopFuel n mk0 = some mk0 := by
  intro n
  cases n <;> simp [maskLoopFuel, h]

theorem maskLoopFuel_step (mk0 : MaskT) (h : ¬ mk0.shape.length = 4) (n : Nat) :
    maskLoopFuel (n + 1) mk0 = maskLoopFuel n mk0.unsqueeze1 := by
  simp [maskLoopFuel, h]

theorem unsq1_length (s : List Nat) (hs : s ≠ []) : (unsq1 s).length = s.length + 1 := by
  cases s with
  | nil => exact absurd rfl hs
  | cons a rest => simp [unsq1]

theorem maskLoopFuel_none_of_gt4 :
    ∀ (n : Nat) (mk0 : MaskT), 4 < mk0.shape.length → maskLoopFuel n mk0 = none := by
  intro n
  induction n with
  | zero =>
    intro mk0 h
    simp only [maskLoopFuel]
    rw [if_neg (by omega)]
  | succ n ih =>
    intro mk0 h
    rw [maskLoopFuel_step mk0 (by omega)]
    apply ih
    have hne : mk0.shape ≠ [] := by
      intro hc
      rw [hc] at h
      simp at h
    simp [MaskT.unsqueeze1, unsq1_length mk0.shape hne]
    omega

/-! ### C8 — mask normalization -/

/-- C8 (amended): the claim as stated fails — not every non-null mask makes the
normalization loop terminate.  For every mask with between 1 and 4 dimensions
the loop terminates (any fuel of at least 3 iterations returns its fixed
result) and yields a 4-dimensional mask obtained purely by inserting singleton
axes at position 1 (the data is unchanged); a mask with more than 4 dimensions
keeps the loop running forever (see the counterexample). -/
theorem c8_mask_normalization (mk0 : MaskT)
    (h1 : 1 ≤ mk0.shape.length) (h4 : mk0.shape.length ≤ 4) :
    ∃ mkR : MaskT,
      (∀ n, 3 ≤ n → maskLoopFuel n mk0 = some mkR)
      ∧ mkR.data = mk0.data
      ∧ mkR.shape.length = 4
      ∧ mkR.shape
          = mk0.shape.take 1 ++ List.replicate (4 - mk0.shape.length) 1 ++ mk0.shape.drop 1 := by
  obtain ⟨sh, dt⟩ := mk0
  simp only at h1 h4 ⊢
  match sh, h1, h4 with
  | [a], _, _ =>
    refine ⟨⟨[a, 1, 1, 1], dt⟩, ?_, rfl, rfl, by simp⟩
    intro n hn
    obtain ⟨p, rfl⟩ : ∃ p, n = p + 3 := ⟨n - 3, by omega⟩
    rw [maskLoopFuel_step _ (by simp), maskLoopFuel_step _ (by simp [MaskT.unsqueeze1, unsq1]),
        maskLoopFuel_step _ (by simp [MaskT.unsqueeze1, unsq1])]
    exact maskLoopFuel_done _ (by simp [MaskT.unsqueeze1, unsq1]) p
  | [a, b], _, _ =>
    refine ⟨⟨[a, 1, 1, b], dt⟩, ?_, rfl, rfl, by simp⟩
    intro n hn
    obtain ⟨p, rfl⟩ : ∃ p, n = p + 2 := ⟨n - 2, by omega⟩
    rw [maskLoopFuel_step _ (by simp), maskLoopFuel_step _ (by simp [MaskT.unsqueeze1, unsq1])]
    exact maskLoopFuel_done _ (by simp [MaskT.unsqueeze1, unsq1]) p
  | [a, b, c], _, _ =>
    refine ⟨⟨[a, 1, b, c], dt⟩, ?_, rfl, rfl, by simp⟩
    intro n hn
    obtain ⟨p, rfl⟩ : ∃ p, n = p + 1 := ⟨n - 1, by omega⟩
    rw [maskLoopFuel_step _ (by simp)]
    exact maskLoopFuel_done _ (by simp [MaskT.unsqueeze1, unsq1]) p
  | [a, b, c, d], _, _ =>
    exact ⟨⟨[a, b, c, d], dt⟩, fun n _ => maskLoopFuel_done _ (by simp) n, rfl, rfl, by simp⟩

/-- C8 counterexample: a 5-dimensional mask (shape `[1,1,1,2,2]`, four data
entries) makes the normalization loop run forever — no amount of fuel makes
`maskLoopFuel` return, refuting termination for every non-null mask. -/
theorem c8_mask_normalization_cx :
    ¬ ∃ n, (maskLoopFuel n ⟨[1, 1, 1, 2, 2], [5, 6, 7, 8]⟩).isSome = true := by
  rintro ⟨n, h⟩
  rw [maskLoopFuel_none_of_gt4 n _ (by simp)] at h
  simp at h

/-! ### C5 / C4 — tensor-parallel construction -/

theorem tp_init_eq (nheads kvheads world_size : Nat)
    (h1 : nheads % world_size = 0)
    (h2 : (world_size ≤ kvheads ∧ kvheads % world_size = 0)
          ∨ (kvheads < world_size ∧ world_size % kvheads = 0)) :
    TPMultiHeadAttention.init nheads kvheads world_size =
      Except.ok ⟨nheads / world_size,
                 if world_size ≤ kvheads then kvheads / world_size else 1,
                 nheads, kvheads, world_size⟩ := by
  unfold TPMultiHeadAttention.init
  rw [if_neg (not_not_intro h1), if_neg (not_not_intro h2)]

theorem tp_init_cond_iff (nheads kvheads world_size : Nat)
    (hkv : 1 ≤ kvheads) (hws : 1 ≤ world_size) :
    (nheads % world_size = 0
      ∧ ((world_size ≤ kvheads ∧ kvheads % world_size = 0)
          ∨ (kvheads < world_size ∧ world_size % kvheads = 0)))
    ↔ (world_size ∣ nheads ∧ (world_size ∣ kvheads ∨ kvheads ∣ world_size)) := by
  constructor
  · rintro ⟨hn, ⟨hle, hmod⟩ | ⟨hlt, hmod⟩⟩
    · exact ⟨Nat.dvd_of_mod_eq_zero hn, Or.inl (Nat.dvd_of_mod_eq_zero hmod)⟩
    · exact ⟨Nat.dvd_of_mod_eq_zero hn, Or.inr (Nat.dvd_of_mod_eq_zero hmod)⟩
  · rintro ⟨hn, hk | hk⟩
    · exact ⟨Nat.mod_eq_zero_of_dvd hn,
        Or.inl ⟨Nat.le_of_dvd (by omega) hk, Nat.mod_eq_zero_of_dvd hk⟩⟩
    · by_cases hc : kvheads < world_size
      · exact ⟨Nat.mod_eq_zero_of_dvd hn, Or.inr ⟨hc, Nat.mod_eq_zero_of_dvd hk⟩⟩
      · have hle : kvheads ≤ world_size := Nat.le_of_dvd (by omega) hk
        refine ⟨Nat.mod_eq_zero_of_dvd hn, Or.inl ⟨by omega, ?_⟩⟩
        have heq : kvheads = world_size := by omega
        rw [heq]
        exact Nat.mod_self _

theorem tp_init_succeeds_iff (nheads kvheads world_size : Nat)
    (hkv : 1 ≤ kvheads) (hws : 1 ≤ world_size) :
    (∃ cfg, TPMultiHeadAttention.init nheads kvheads world_size = Except.ok cfg)
      ↔ (world_size ∣ nheads ∧ (world_size ∣ kvheads ∨ kvheads ∣ world_size)) := by
  rw [← tp_init_cond_iff nheads kvheads world_size hkv hws]
  constructor
  · rintro ⟨cfg, hcfg⟩
    by_contra hc
    unfold TPMultiHeadAttention.init at hcfg
    rcases Decidable.not_and_iff_or_not.mp hc with h | h
    · rw [if_pos (by simpa using h)] at hcfg
      exact absurd hcfg (by simp)
    · by_cases h1 : nheads % world_size = 0
      · rw [if_neg (by simpa using h1), if_pos (by simpa using h)] at hcfg
        exact absurd hcfg (by simp)
      · rw [if_pos (by simpa using h1)] at hcfg
        exact absurd hcfg (by simp)
  · rintro ⟨h1, h2⟩
    exact ⟨_, tp_init_eq nheads kvheads world_size h1 h2⟩

/-- C5: constructing the parallel attention wrapper raises the configuration
assert (and raises it before the underlying module is initialized — in the
embedding, `Except.error` is returned before any `TPHeadCfg` is built) if and
only if the divisibility invariant fails: construction succeeds exactly when
`world_size` divides `nheads` and either `world_size` divides `kvheads` or
`kvheads` divides `world_size`.  Head counts are positive (a zero KV-head
count is a degenerate configuration that Python rejects with
`ZeroDivisionError` inside the assert expression itself). -/
theorem c5_tp_init_raises_iff (nheads kvheads world_size : Nat)
    (hkv : 1 ≤ kvheads) (hws : 1 ≤ world_size) :
    (∃ cfg, TPMultiHeadAttention.init nheads kvheads world_size = Except.ok cfg)
      ↔ (world_size ∣ nheads ∧ (world_size ∣ kvheads ∨ kvheads ∣ world_size)) :=
  tp_init_succeeds_iff nheads kvheads world_size hkv hws

/-- C5 witness: at `nheads = 8`, `kvheads = 2`, `world_size = 4` the
equivalence is realized concretely. -/
theorem c5_tp_init_raises_iff_witness :
    (∃ cfg, TPMultiHeadAttention.init 8 2 4 = Except.ok cfg)
      ↔ (4 ∣ 8 ∧ (4 ∣ 2 ∨ 2 ∣ 4)) :=
  c5_tp_init_raises_iff 8 2 4 (by decide) (by decide)

theorem sum_const_range (n c : Nat) : ((List.range n).map (fun _ => c)).sum = n * c := by
  induction n with
  | zero => simp
  | succ n ih =>
    rw [List.range_succ]
    simp [ih, Nat.succ_mul]

/-- C4 counterexample: at `nheads = 4`, `kvheads = 2`, `world_size = 4` the
divisibility invariant holds (`2 ∣ 4`), construction succeeds with one local
KV head per worker, and the local KV head counts sum to `4`, not to the
global `kvheads = 2` — refuting the claim that the local KV head counts
always sum to the global count. -/
theorem c4_tp_local_head_sums_cx :
    TPMultiHeadAttention.init 4 2 4 = Except.ok ⟨1, 1, 4, 2, 4⟩
    ∧ ((List.range 4).map (fun _ => (1 : Nat))).sum ≠ 2 := by
  constructor
  · rfl
  · decide

/-- C4 (amended): the claim as stated fails in the KV-replication regime (see
the counterexample).  For every valid configuration, construction succeeds,
the per-worker local query head counts sum to the global `nheads`, and the
per-worker local KV head counts sum to the global `kvheads` whenever
`world_size ≤ kvheads`; when `kvheads < world_size` every worker instead gets
one (replicated) local KV head, so those counts sum to `world_size`. -/
theorem c4_tp_local_head_sums (nheads kvheads world_size : Nat)
    (hkv : 1 ≤ kvheads) (hws : 1 ≤ world_size)
    (hn : world_size ∣ nheads) (hk : world_size ∣ kvheads ∨ kvheads ∣ world_size) :
    ∃ cfg, TPMultiHeadAttention.init nheads kvheads world_size = Except.ok cfg
      ∧ ((List.range world_size).map (fun _ => cfg.nheads)).sum = nheads
      ∧ (world_size ≤ kvheads →
          ((List.range world_size).map (fun _ => cfg.kvheads)).sum = kvheads)
      ∧ (kvheads < world_size →
          cfg.kvheads = 1
          ∧ ((List.range world_size).map (fun _ => cfg.kvheads)).sum = world_size) := by
  obtain ⟨h1, h2⟩ := (tp_init_cond_iff nheads kvheads world_size hkv hws).mpr ⟨hn, hk⟩
  refine ⟨_, tp_init_eq nheads kvheads world_size h1 h2, ?_, ?_, ?_⟩
  · simp only [sum_const_range]
    exact Nat.mul_div_cancel' hn
  · intro hle
    simp only [if_pos hle, sum_const_range]
    have hdvd : world_size ∣ kvheads := by
      rcases hk with hk | hk
      · exact hk
      · have := Nat.le_of_dvd (by omega) hk
        have heq : kvheads = world_size := by omega
        rw [heq]
    exact Nat.mul_div_cancel' hdvd
  · intro hlt
    have hn2 : ¬ world_size ≤ kvheads := by omega
    simp only [if_neg hn2, sum_const_range]
    exact ⟨by trivial, by omega⟩

/-- C4 witness: at `nheads = 8`, `kvheads = 2`, `world_size = 2` construction
succeeds and both local head-count sums hit the global counts. -/
theorem c4_tp_local_head_sums_witness :
    ∃ cfg, TPMultiHeadAttention.init 8 2 2 = Except.ok cfg
      ∧ ((List.range 2).map (fun _ => cfg.nheads)).sum = 8
      ∧ (2 ≤ 2 → ((List.range 2).map (fun _ => cfg.kvheads)).sum = 2)
      ∧ (2 < 2 → cfg.kvheads = 1
          ∧ ((List.range 2).map (fun _ => cfg.kvheads)).sum = 2) :=
  c4_tp_local_head_sums 8 2 2 (by decide) (by decide) (by decide) (Or.inl (by decide))

/-- C8 witness: a concrete 3-dimensional mask (shape `[2, 3, 5]`) is
normalized to shape `[2, 1, 3, 5]` with its data untouched. -/
theorem c8_mask_normalization_witness :
    ∃ mkR : MaskT,
      (∀ n, 3 ≤ n → maskLoopFuel n ⟨[2, 3, 5], [7]⟩ = some mkR)
      ∧ mkR.data = (⟨[2, 3, 5], [7]⟩ : MaskT).data
      ∧ mkR.shape.length = 4
      ∧ mkR.shape = [2, 3, 5].take 1 ++ List.replicate (4 - [2, 3, 5].length) 1
          ++ [2, 3, 5].drop 1 :=
  c8_mask_normalization ⟨[2, 3, 5], [7]⟩ (by decide) (by decide)

/-! ### C3 — grouped-query KV expansion -/

theorem expandKV_eq_flatMap (e : Nat) (t : T4) :
    expandKV e t = t.map (fun bt => bt.flatMap (fun hd => List.replicate e hd)) := by
  unfold expandKV
  refine List.map_congr_left (fun bt _ => ?_)
  rw [List.map_map]
  have hcomp : ((fun s => s.flatMap (fun hd => List.replicate e hd))
      ∘ (fun hd => [hd])) = (fun hd : Mat => List.replicate e hd) := by
    funext hd
    simp
  rw [hcomp, ← List.flatMap_def]

theorem flatMap_replicate_getElem (e : Nat) (he : 1 ≤ e) :
    ∀ (l : List Mat) (j : Nat), j < e * l.length →
      (l.flatMap (fun hd => List.replicate e hd))[j]? = l[j / e]? := by
  intro l
  induction l with
  | nil => simp
  | cons hhd tl ih =>
    intro j hj
    rw [List.flatMap_cons]
    by_cases hje : j < e
    · rw [List.getElem?_append_left (by simpa using hje)]
      rw [Nat.div_eq_of_lt hje]
      simp [List.getElem?_replicate, hje]
    · push_neg at hje
      rw [List.getElem?_append_right (by simpa using hje), List.length_replicate]
      have hj2 : j - e < e * tl.length := by
        rw [List.length_cons, Nat.mul_succ] at hj
        omega
      rw [ih (j - e) hj2]
      rw [Nat.div_eq_sub_div (by omega) hje, List.getElem?_cons_succ]

/-- C3: grouped-query expansion reads head `j div e`.  When query heads exceed
KV heads, `forward` feeds the attention kernel `expandKV e keys` and
`expandKV e values` with `e = nheads / kvheads` (its `expansion ≠ 1` branch);
this theorem shows the expanded tensor at any batch `bi` and expanded head
index `j < nheads` is exactly the original KV head `j / e` — each KV head
repeated `e` times in a contiguous block, no interleaving. -/
theorem c3_gqa_expansion (m : MultiHeadAttention) (t : T4) (b s d : Nat)
    (hdvd : m.kvheads ∣ m.nheads) (hlt : m.kvheads < m.nheads) (hkv : 1 ≤ m.kvheads)
    (ht : Shape4 t b m.kvheads s d) (bi j : Nat) (hbi : bi < b) (hj : j < m.nheads) :
    ((expandKV (m.nheads / m.kvheads) t).getD bi [])[j]?
      = (t.getD bi [])[j / (m.nheads / m.kvheads)]? := by
  obtain ⟨hlen, hmem⟩ := ht
  have hbi2 : bi < t.length := by omega
  have he : 1 ≤ m.nheads / m.kvheads := by
    rw [Nat.one_le_div_iff (by omega)]
    omega
  rw [expandKV_eq_flatMap]
  rw [List.getD_eq_getElem?_getD, List.getD_eq_getElem?_getD, List.getElem?_map]
  rw [List.getElem?_eq_getElem hbi2]
  simp only [Option.map_some, Option.getD_some]
  apply flatMap_replicate_getElem _ he
  have hbt : (t[bi]).length = m.kvheads := (hmem _ (List.getElem_mem hbi2)).1
  rw [hbt, Nat.div_mul_cancel hdvd]
  exact hj

/-- C3 witness: with `nheads = 8`, `kvheads = 2` (`e = 4`) and a two-head KV
tensor, expanded head 5 reads original head `5 / 4 = 1` — heads 0–3 map to
head 0 and heads 4–7 to head 1. -/
theorem c3_gqa_expansion_witness :
    ((expandKV ((sampleMHA 8 2).nheads / (sampleMHA 8 2).kvheads)
        [[[[10]], [[20]]]]).getD 0 [])[5]?
      = (([[[[10]], [[20]]]] : T4).getD 0 [])[5 / ((sampleMHA 8 2).nheads / (sampleMHA 8 2).kvheads)]? :=
  c3_gqa_expansion (sampleMHA 8 2) [[[[10]], [[20]]]] 1 1 1 (by decide) (by decide)
    (by decide) (by decide) 0 5 (by decide) (by decide)

/-! ### C7 — rotary table cache -/

theorem rot_setCache_wf (s : GaudiRotaryEmbedding) (cosF sinF : Scalar → Scalar) (L : Nat) :
    RotWF cosF sinF (s.setCosSinCache cosF sinF L) := ⟨rfl, rfl⟩

theorem rot_forward_wf {s : GaudiRotaryEmbedding} {cosF sinF : Scalar → Scalar}
    (hwf : RotWF cosF sinF s) (L : Nat) : RotWF cosF sinF (s.forward cosF sinF L).1 := by
  unfold GaudiRotaryEmbedding.forward
  by_cases h : s.maxSeqLenCached < L
  · simpa [h] using rot_setCache_wf s cosF sinF L
  · simpa [h] using hwf

theorem rot_forward_max (s : GaudiRotaryEmbedding) (cosF sinF : Scalar → Scalar) (L : Nat) :
    (s.forward cosF sinF L).1.maxSeqLenCached = max s.maxSeqLenCached L := by
  unfold GaudiRotaryEmbedding.forward
  by_cases h : s.maxSeqLenCached < L
  · simp [h, GaudiRotaryEmbedding.setCosSinCache]
    omega
  · simp [h]
    omega

theorem rot_forward_invFreq (s : GaudiRotaryEmbedding) (cosF sinF : Scalar → Scalar) (L : Nat) :
    (s.forward cosF sinF L).1.invFreq = s.invFreq := by
  unfold GaudiRotaryEmbedding.forward
  by_cases h : s.maxSeqLenCached < L
  · simp [h, GaudiRotaryEmbedding.setCosSinCache]
  · simp [h]

theorem rot_forward_noregen {s : GaudiRotaryEmbedding} {cosF sinF : Scalar → Scalar} {L : Nat}
    (h : L ≤ s.maxSeqLenCached) : (s.forward cosF sinF L).1 = s := by
  unfold GaudiRotaryEmbedding.forward
  rw [if_neg (by omega)]

theorem rot_forward_out_cos {s : GaudiRotaryEmbedding} {cosF sinF : Scalar → Scalar} {L : Nat}
    (h : L ≤ s.maxSeqLenCached) : (s.forward cosF sinF L).2.1 = s.cosCached.take L := by
  unfold GaudiRotaryEmbedding.forward
  rw [if_neg (by omega)]

theorem rot_forward_out_sin {s : GaudiRotaryEmbedding} {cosF sinF : Scalar → Scalar} {L : Nat}
    (h : L ≤ s.maxSeqLenCached) : (s.forward cosF sinF L).2.2 = s.sinCached.take L := by
  unfold GaudiRotaryEmbedding.forward
  rw [if_neg (by omega)]

theorem gen_take (f : Vec) (g : Scalar → Scalar) (L1 L2 : Nat) (h : L1 ≤ L2) :
    (((List.range L2).map (ropeRow f)).map (List.map g)).take L1
      = ((List.range L1).map (ropeRow f)).map (List.map g) := by
  rw [← List.map_take, ← List.map_take, List.take_range, Nat.min_eq_left h]

/-- C7: requesting rotary tables for `L1` then `L2 > L1` leaves the cache
covering at least `L2`; the cached maximum only grows (never shrinks); a
request already covered by the cache performs no regeneration (the state is
returned untouched); and a subsequent request for `L1` again regenerates
nothing and returns exactly the first `L1` rows of the table that a
regeneration at `L2` produces (prefix-stable growth: row `i` of the table
depends only on `i` and the inverse frequencies). -/
theorem c7_rotary_prefix_stable (cosF sinF : Scalar → Scalar) (s : GaudiRotaryEmbedding)
    (hwf : RotWF cosF sinF s) (L1 L2 : Nat) (h12 : L1 < L2) :
    L2 ≤ ((s.forward cosF sinF L1).1.forward cosF sinF L2).1.maxSeqLenCached
    ∧ s.maxSeqLenCached ≤ (s.forward cosF sinF L1).1.maxSeqLenCached
    ∧ (s.forward cosF sinF L1).1.maxSeqLenCached
        ≤ ((s.forward cosF sinF L1).1.forward cosF sinF L2).1.maxSeqLenCached
    ∧ (L2 ≤ (s.forward cosF sinF L1).1.maxSeqLenCached →
        ((s.forward cosF sinF L1).1.forward cosF sinF L2).1 = (s.forward cosF sinF L1).1)
    ∧ (((s.forward cosF sinF L1).1.forward cosF sinF L2).1.forward cosF sinF L1).1
        = ((s.forward cosF sinF L1).1.forward cosF sinF L2).1
    ∧ (((s.forward cosF sinF L1).1.forward cosF sinF L2).1.forward cosF sinF L1).2.1
        = (s.setCosSinCache cosF sinF L2).cosCached.take L1
    ∧ (((s.forward cosF sinF L1).1.forward cosF sinF L2).1.forward cosF sinF L1).2.2
        = (s.setCosSinCache cosF sinF L2).sinCached.take L1 := by
  have hwf1 : RotWF cosF sinF (s.forward cosF sinF L1).1 := rot_forward_wf hwf L1
  have hwf2 : RotWF cosF sinF ((s.forward cosF sinF L1).1.forward cosF sinF L2).1 :=
    rot_forward_wf hwf1 L2
  have hmax1 := rot_forward_max s cosF sinF L1
  have hmax2 := rot_forward_max (s.forward cosF sinF L1).1 cosF sinF L2
  have hinv1 := rot_forward_invFreq s cosF sinF L1
  have hinv2 := rot_forward_invFreq (s.forward cosF sinF L1).1 cosF sinF L2
  refine ⟨by omega, by omega, by omega, ?_, ?_, ?_, ?_⟩
  · intro hle
    exact rot_forward_noregen (by omega)
  · exact rot_forward_noregen (by omega)
  · rw [rot_forward_out_cos (by omega)]
    rw [hwf2.1, hinv2, hinv1]
    simp only [GaudiRotaryEmbedding.setCosSinCache]
    rw [gen_take _ _ _ _ (by omega), gen_take _ _ _ _ (by omega)]
  · rw [rot_forward_out_sin (by omega)]
    rw [hwf2.2, hinv2, hinv1]
    simp only [GaudiRotaryEmbedding.setCosSinCache]
    rw [gen_take _ _ _ _ (by omega), gen_take _ _ _ _ (by omega)]

/-- C7 witness: a concrete well-formed rotary state (inverse frequencies
`[1]`, two cached rows, identity numeric kernels), with `L1 = 1`, `L2 = 3`. -/
theorem c7_rotary_prefix_stable_witness :
    3 ≤ ((sRot.forward id id 1).1.forward id id 3).1.maxSeqLenCached
    ∧ sRot.maxSeqLenCached ≤ (sRot.forward id id 1).1.maxSeqLenCached
    ∧ (sRot.forward id id 1).1.maxSeqLenCached
        ≤ ((sRot.forward id id 1).1.forward id id 3).1.maxSeqLenCached
    ∧ (3 ≤ (sRot.forward id id 1).1.maxSeqLenCached →
        ((sRot.forward id id 1).1.forward id id 3).1 = (sRot.forward id id 1).1)
    ∧ (((sRot.forward id id 1).1.forward id id 3).1.forward id id 1).1
        = ((sRot.forward id id 1).1.forward id id 3).1
    ∧ (((sRot.forward id id 1).1.forward id id 3).1.forward id id 1).2.1
        = (sRot.setCosSinCache id id 3).cosCached.take 1
    ∧ (((sRot.forward id id 1).1.forward id id 3).1.forward id id 1).2.2
        = (sRot.setCosSinCache id id 3).sinCached.take 1 :=
  c7_rotary_prefix_stable id id sRot (by decide) 1 3 (by decide)

/-! ### C1 — cross-attention cache reuse -/

/-- C1 (code bug at the failing input): on the non-HPU path, a cross-attention
call (`is_self = False`) with `use_cache = True` and a non-empty prior cache
never reaches the cache-reuse branch: the `if is_self or past_key_value_state
is None` block skips computing `keys`/`values`, yet the unconditional
`keys = keys.transpose(2, 1)` that follows reads the local `keys`, raising
`UnboundLocalError` — instead of reusing the cached pair as the spec states
(and as the code's own comment, "cross attention only gets computed when a
cache does not exist", intends; the HPU branch keeps the transposes inside
the conditional and behaves as specified). -/
theorem c1_cross_attention_cache_unbound :
    MultiHeadAttention.forward (sampleMHA 1 1) idExternals false false
      [[[1]]] [[[1]]] [[[1]]] none none none (some ([[[[1]]]], [[[[1]]]])) true false false
      = Except.error PyErr.unboundLocal := by
  rfl

/-! ### C9 — tensor-parallel forward reduces the output only -/

/-- C9: for every call to the parallel wrapper's forward (any `use_cache`,
any attention mode) whose local Attention Core call on the partition-copied
inputs succeeds, the wrapper returns the cross-worker reduction `reduceF`
applied to the local output tensor only; and exactly when `use_cache` is set,
it also returns the local core's key/value cache passed through
bit-identically — the cache is never fed to the reduction collective. -/
theorem c9_tp_forward_reduces_out_only (m : MultiHeadAttention) (ext : Externals)
    (copyF reduceF : T3 → T3) (training isHpu : Bool) (q k v : T3)
    (mask : Option MaskT) (position_ids : Option PosIds) (attn_algorithm : Option String)
    (past_key_value_state : Option (T4 × T4)) (use_cache is_self is_causal_mask : Bool)
    (m2 : MultiHeadAttention) (out : T3) (cache : Option (T4 × T4))
    (h : MultiHeadAttention.forward m ext training isHpu (copyF q) (copyF k) (copyF v)
          mask position_ids attn_algorithm past_key_value_state use_cache is_self
          is_causal_mask
        = Except.ok (m2, out, cache)) :
    TPMultiHeadAttention.forward m ext copyF reduceF training isHpu q k v mask position_ids
        attn_algorithm past_key_value_state use_cache is_self is_causal_mask
      = Except.ok (m2, reduceF out, if use_cache then cache else none) := by
  simp only [TPMultiHeadAttention.forward, h]
  cases use_cache <;> rfl

/-- C9 witness: a concrete one-head module with a reduction stub that is
visibly applied to the output (`[[[5]]] ↦ [[[7]]]`) while the returned cache
keeps the local value `[[[[5]]]]` (here `use_cache = true`; the same theorem
instance covers `use_cache = false`, where the cache component is `none`). -/
theorem c9_tp_forward_reduces_out_only_witness :
    TPMultiHeadAttention.forward (sampleMHA 1 1) idExternals id (fun _ => [[[7]]]) false false
      [[[5]]] [[[5]]] [[[5]]] none none none none true true false
      = Except.ok (sampleMHA 1 1, [[[7]]],
          if true then some ([[[[5]]]], [[[[5]]]]) else none) :=
  c9_tp_forward_reduces_out_only (sampleMHA 1 1) idExternals id (fun _ => [[[7]]]) false false
    [[[5]]] [[[5]]] [[[5]]] none none none none true true false (sampleMHA 1 1) [[[5]]]
    (some ([[[[5]]]], [[[[5]]]])) (by rfl)

/-! ### Shape lemmas for the forward pipeline -/

theorem Linear.apply_length {l : Linear} {outF : Nat} (hl : l.wf outF) (x : Vec) :
    (l.apply x).length = outF := by
  unfold Linear.apply
  cases hb : l.bias with
  | none => simpa using hl.1
  | some bb =>
    have hbb : bb.length = outF := hl.2 bb (by simp [hb])
    simp [List.length_zipWith, hl.1, hbb]

theorem linT3_shape {l : Linear} {t : T3} {b s e outF : Nat}
    (hl : l.wf outF) (ht : Shape3 t b s e) : Shape3 (linT3 l t) b s outF := by
  obtain ⟨h1, h2⟩ := ht
  refine ⟨by simpa [linT3] using h1, ?_⟩
  intro bt hbt
  simp only [linT3, List.mem_map] at hbt
  obtain ⟨bt0, hbt0, rfl⟩ := hbt
  refine ⟨by simpa using (h2 bt0 hbt0).1, ?_⟩
  intro r hr
  simp only [List.mem_map] at hr
  obtain ⟨x, _, rfl⟩ := hr
  exact Linear.apply_length hl x

theorem chunksOf_shape {h d : Nat} {v : Vec} (hv : v.length = h * d) :
    (chunksOf h d v).length = h ∧ ∀ c ∈ chunksOf h d v, c.length = d := by
  constructor
  · simp [chunksOf]
  · intro c hc
    simp only [chunksOf, List.mem_map, List.mem_range] at hc
    obtain ⟨i, hi, rfl⟩ := hc
    have hmul : (i + 1) * d ≤ h * d := Nat.mul_le_mul_right d hi
    rw [List.length_take, List.length_drop, hv]
    rw [Nat.add_mul, Nat.one_mul] at hmul
    omega

theorem viewSplit_shape {t : T3} {b s h d : Nat} (ht : Shape3 t b s (h * d)) :
    Shape4 (viewSplit h d t) b s h d := by
  obtain ⟨h1, h2⟩ := ht
  refine ⟨by simpa [viewSplit] using h1, ?_⟩
  intro bt hbt
  simp only [viewSplit, List.mem_map] at hbt
  obtain ⟨bt0, hbt0, rfl⟩ := hbt
  refine ⟨by simpa using (h2 bt0 hbt0).1, ?_⟩
  intro hd0 hhd
  simp only [List.mem_map] at hhd
  obtain ⟨x, hx, rfl⟩ := hhd
  exact chunksOf_shape ((h2 bt0 hbt0).2 x hx)

theorem tpose_shape {t : List (List Vec)} {s h d : Nat}
    (hlen : t.length = s) (hrow : ∀ row ∈ t, row.length = h ∧ ∀ x ∈ row, x.length = d) :
    (tpose h t).length = h
    ∧ ∀ col ∈ tpose h t, col.length = s ∧ ∀ x ∈ col, x.length = d := by
  constructor
  · simp [tpose]
  · intro col hcol
    simp only [tpose, List.mem_map, List.mem_range] at hcol
    obtain ⟨j, hj, rfl⟩ := hcol
    refine ⟨by simpa using hlen, ?_⟩
    intro x hx
    simp only [List.mem_map] at hx
    obtain ⟨row, hrowMem, rfl⟩ := hx
    have hjr : j < row.length := by rw [(hrow row hrowMem).1]; exact hj
    rw [List.getElem?_eq_getElem hjr]
    exact (hrow row hrowMem).2 _ (List.getElem_mem hjr)

theorem tr21_shape {t : T4} {b s h d : Nat} (ht : Shape4 t b s h d) :
    Shape4 (tr21 h t) b h s d := by
  obtain ⟨h1, h2⟩ := ht
  refine ⟨by simpa [tr21] using h1, ?_⟩
  intro bt hbt
  simp only [tr21, List.mem_map] at hbt
  obtain ⟨bt0, hbt0, rfl⟩ := hbt
  exact tpose_shape (h2 bt0 hbt0).1 (h2 bt0 hbt0).2

theorem mem_zipWith {α β γ : Type} {f : α → β → γ} {x : γ} :
    ∀ {l1 : List α} {l2 : List β}, x ∈ List.zipWith f l1 l2 →
      ∃ a ∈ l1, ∃ b0 ∈ l2, x = f a b0 := by
  intro l1
  induction l1 with
  | nil => intro l2 h; simp at h
  | cons a l1 ih =>
    intro l2 h
    cases l2 with
    | nil => simp at h
    | cons b0 l2 =>
      rw [List.zipWith_cons_cons, List.mem_cons] at h
      rcases h with h | h
      · exact ⟨a, by simp, b0, by simp, h⟩
      · obtain ⟨a2, ha2, b2, hb2, rfl⟩ := ih h
        exact ⟨a2, by simp [ha2], b2, by simp [hb2], rfl⟩

theorem cat2_shape {a c : T4} {b h s1 s2 d : Nat}
    (ha : Shape4 a b h s1 d) (hc : Shape4 c b h s2 d) :
    Shape4 (cat2 a c) b h (s1 + s2) d := by
  obtain ⟨ha1, ha2⟩ := ha
  obtain ⟨hc1, hc2⟩ := hc
  refine ⟨by simp [cat2, List.length_zipWith, ha1, hc1], ?_⟩
  intro bt hbt
  obtain ⟨x, hx, y, hy, rfl⟩ := mem_zipWith hbt
  refine ⟨by simp [List.length_zipWith, (ha2 x hx).1, (hc2 y hy).1], ?_⟩
  intro hd0 hhd
  obtain ⟨u, hu, w, hw, rfl⟩ := mem_zipWith hhd
  refine ⟨by simp [((ha2 x hx).2 u hu).1, ((hc2 y hy).2 w hw).1], ?_⟩
  intro r hr
  rcases List.mem_append.mp hr with h | h
  · exact ((ha2 x hx).2 u hu).2 r h
  · exact ((hc2 y hy).2 w hw).2 r h

theorem numel4_pos {t : T4} {b h s d : Nat} (ht : Shape4 t b h s d)
    (hb : 1 ≤ b) (hh : 1 ≤ h) (hs : 1 ≤ s) (hd : 1 ≤ d) : 0 < numel4 t := by
  obtain ⟨h1, h2⟩ := ht
  obtain ⟨bt, hbt⟩ := List.exists_mem_of_length_pos (by omega : 0 < t.length)
  obtain ⟨hd0, hhd⟩ := List.exists_mem_of_length_pos
    (by rw [(h2 bt hbt).1]; omega : 0 < bt.length)
  obtain ⟨r, hr⟩ := List.exists_mem_of_length_pos
    (by rw [((h2 bt hbt).2 hd0 hhd).1]; omega : 0 < hd0.length)
  obtain ⟨x, hx⟩ := List.exists_mem_of_length_pos
    (by rw [(((h2 bt hbt).2 hd0 hhd).2 r hr)]; omega : 0 < r.length)
  have hmem : x ∈ t.flatten.flatten.flatten := by
    rw [List.mem_flatten]
    refine ⟨r, ?_, hx⟩
    rw [List.mem_flatten]
    refine ⟨hd0, ?_, hr⟩
    rw [List.mem_flatten]
    exact ⟨bt, hbt, hhd⟩
  unfold numel4
  exact List.length_pos.mpr (List.ne_nil_of_mem hmem)

theorem maskNorm_ok {mask : Option MaskT} (h : MaskOk mask) :
    ∃ mo, maskNorm mask = Except.ok mo := by
  cases mask with
  | none => exact ⟨none, rfl⟩
  | some mk0 =>
    obtain ⟨mk2, hmk⟩ := Option.isSome_iff_exists.mp (h mk0 (by simp))
    exact ⟨some mk2, by simp [maskNorm, hmk]⟩

theorem mergeKV_past_none (use_cache is_self : Bool) (kvOpt : Option (T4 × T4)) :
    mergeKV use_cache is_self none kvOpt = Except.ok kvOpt := rfl

theorem mergeKV_self_cat (pk pv : T4) (hnum : 0 < numel4 pk) (ks vs : T4) :
    mergeKV true true (some (pk, pv)) (some (ks, vs))
      = Except.ok (some (cat2 pk ks, cat2 pv vs)) := by
  simp [mergeKV, hnum]

theorem projectQKV_self_shape (m : MultiHeadAttention) (ext : Externals) (isHpu : Bool)
    (q k v : T3) (position_ids : Option PosIds) (past : Option (T4 × T4)) (use_cache : Bool)
    {b Lq L : Nat}
    (hm : MHAwf m) (hext : RopeShapeOk ext) (hpe : PeOk m)
    (hq : Shape3 q b Lq m.emb_dim) (hk : Shape3 k b L m.emb_dim)
    (hv : Shape3 v b L m.emb_dim) :
    ∃ rot2 queries1 ks vs,
      projectQKV m ext isHpu q k v position_ids past use_cache true
        = Except.ok ({ m with rotary_emb := rot2 }, queries1, some (ks, vs))
      ∧ Shape4 ks b m.kvheads L m.emb_kq_per_head
      ∧ Shape4 vs b m.kvheads L m.emb_v_per_head := by
  obtain ⟨ed, ekq, ev, nh, kv, pd, ub, qy, ky, vl, de, peo, rot⟩ := m
  obtain ⟨hmq, hmk, hmv, hnh, hkv, hdk, hdv⟩ := hm
  simp only at hmq hmk hmv hq hk hv hpe ⊢
  have hkeys1 : Shape4 (tr21 kv (viewSplit kv ekq (linT3 ky k))) b kv L ekq :=
    tr21_shape (viewSplit_shape (linT3_shape hmk hk))
  have hvalues1 : Shape4 (tr21 kv (viewSplit kv ev (linT3 vl v))) b kv L ev :=
    tr21_shape (viewSplit_shape (linT3_shape hmv hv))
  have hqueries0 : Shape4 (viewSplit nh ekq (linT3 qy q)) b Lq nh ekq :=
    viewSplit_shape (linT3_shape hmq hq)
  have hkeys0 : Shape4 (viewSplit kv ekq (linT3 ky k)) b L kv ekq :=
    viewSplit_shape (linT3_shape hmk hk)
  cases isHpu with
  | true =>
    cases peo with
    | some pe =>
      simp only [projectQKV, Bool.true_or, if_true]
      refine ⟨_, _, _, _, rfl, ?_, ?_⟩
      · exact hext _ _ _ _ _ _ _ _ hkeys1
      · exact hvalues1
    | none =>
      simp only [projectQKV, Bool.true_or, if_true]
      exact ⟨rot, _, _, _, rfl, hkeys1, hvalues1⟩
  | false =>
    cases peo with
    | some pe =>
      simp only [projectQKV, Bool.true_or, if_true, Bool.false_eq_true, if_false]
      refine ⟨rot, _, _, _, rfl, ?_, ?_⟩
      · exact tr21_shape ((hpe pe (by simp) _ _ position_ids past use_cache
          _ _ _ _ _ _ _ _ hqueries0 hkeys0).2)
      · exact hvalues1
    | none =>
      simp only [projectQKV, Bool.true_or, if_true, Bool.false_eq_true, if_false]
      exact ⟨rot, _, _, _, rfl, tr21_shape hkeys0, hvalues1⟩

theorem ebind_ok {ε α β : Type} (a : α) (f : α → Except ε β) :
    (Except.ok a : Except ε α) >>= f = f a := rfl

theorem epure_def {ε α : Type} (a : α) : (pure a : Except ε α) = Except.ok a := rfl

theorem forward_self_cache_nopast (m : MultiHeadAttention) (ext : Externals)
    (training isHpu : Bool) (q k v : T3) (mask : Option MaskT)
    (position_ids : Option PosIds) (attn_algorithm : Option String) (is_causal_mask : Bool)
    {b Lq L : Nat}
    (hm : MHAwf m) (hext : RopeShapeOk ext) (hpe : PeOk m) (hmask : MaskOk mask)
    (hq : Shape3 q b Lq m.emb_dim) (hk : Shape3 k b L m.emb_dim)
    (hv : Shape3 v b L m.emb_dim) :
    ∃ rot2 out ck cv,
      MultiHeadAttention.forward m ext training isHpu q k v mask position_ids attn_algorithm
          none true true is_causal_mask
        = Except.ok ({ m with rotary_emb := rot2 }, out, some (ck, cv))
      ∧ Shape4 ck b m.kvheads L m.emb_kq_per_head
      ∧ Shape4 cv b m.kvheads L m.emb_v_per_head := by
  obtain ⟨rot2, qs1, ks, vs, hproj, hks, hvs⟩ :=
    projectQKV_self_shape m ext isHpu q k v position_ids none true hm hext hpe hq hk hv
  obtain ⟨mo, hmo⟩ := maskNorm_ok hmask
  have hkv0 : ¬ (m.kvheads = 0) := by
    have := hm.2.2.2.2.1
    omega
  suffices h : ∃ out,
      MultiHeadAttention.forward m ext training isHpu q k v mask position_ids attn_algorithm
          none true true is_causal_mask
        = Except.ok ({ m with rotary_emb := rot2 }, out, some (ks, vs)) by
    obtain ⟨out, hout⟩ := h
    exact ⟨rot2, out, ks, vs, hout, hks, hvs⟩
  cases hpec : m.position_encoder with
  | some pe =>
    exact ⟨_, by
      simp only [MultiHeadAttention.forward, hproj, ebind_ok, mergeKV_past_none,
        hmo, epure_def, hpec, hkv0, if_false, if_true]
      rfl⟩
  | none =>
    exact ⟨_, by
      simp only [MultiHeadAttention.forward, hproj, ebind_ok, mergeKV_past_none,
        hmo, epure_def, hpec, hkv0, if_false, if_true]
      rfl⟩

theorem forward_self_cache_past (m : MultiHeadAttention) (ext : Externals)
    (training isHpu : Bool) (q k v : T3) (mask : Option MaskT)
    (position_ids : Option PosIds) (attn_algorithm : Option String) (is_causal_mask : Bool)
    (pk pv : T4) {b Lq L P : Nat}
    (hm : MHAwf m) (hext : RopeShapeOk ext) (hpe : PeOk m) (hmask : MaskOk mask)
    (hq : Shape3 q b Lq m.emb_dim) (hk : Shape3 k b L m.emb_dim)
    (hv : Shape3 v b L m.emb_dim)
    (hpk : Shape4 pk b m.kvheads P m.emb_kq_per_head)
    (hpv : Shape4 pv b m.kvheads P m.emb_v_per_head)
    (hnum : 0 < numel4 pk) :
    ∃ rot2 out kNew vNew,
      MultiHeadAttention.forward m ext training isHpu q k v mask position_ids attn_algorithm
          (some (pk, pv)) true true is_causal_mask
        = Except.ok ({ m with rotary_emb := rot2 }, out, some (cat2 pk kNew, cat2 pv vNew))
      ∧ Shape4 kNew b m.kvheads L m.emb_kq_per_head
      ∧ Shape4 vNew b m.kvheads L m.emb_v_per_head
      ∧ Shape4 (cat2 pk kNew) b m.kvheads (P + L) m.emb_kq_per_head
      ∧ Shape4 (cat2 pv vNew) b m.kvheads (P + L) m.emb_v_per_head := by
  obtain ⟨rot2, qs1, ks, vs, hproj, hks, hvs⟩ :=
    projectQKV_self_shape m ext isHpu q k v position_ids (some (pk, pv)) true hm hext hpe hq hk hv
  obtain ⟨mo, hmo⟩ := maskNorm_ok hmask
  have hkv0 : ¬ (m.kvheads = 0) := by
    have := hm.2.2.2.2.1
    omega
  have hmerge := mergeKV_self_cat pk pv hnum ks vs
  suffices h : ∃ out,
      MultiHeadAttention.forward m ext training isHpu q k v mask position_ids attn_algorithm
          (some (pk, pv)) true true is_causal_mask
        = Except.ok ({ m with rotary_emb := rot2 }, out, some (cat2 pk ks, cat2 pv vs)) by
    obtain ⟨out, hout⟩ := h
    exact ⟨rot2, out, ks, vs, hout, hks, hvs, cat2_shape hpk hks, cat2_shape hpv hvs⟩
  cases hpec : m.position_encoder with
  | some pe =>
    exact ⟨_, by
      simp only [MultiHeadAttention.forward, hproj, ebind_ok, hmerge,
        hmo, epure_def, hpec, hkv0, if_false, if_true]
      rfl⟩
  | none =>
    exact ⟨_, by
      simp only [MultiHeadAttention.forward, hproj, ebind_ok, hmerge,
        hmo, epure_def, hpec, hkv0, if_false, if_true]
      rfl⟩

/-! ### C2 — self-attention cache concatenation -/

/-- C2: across two successive self-attention calls with `use_cache = True`,
where the second call receives the cache returned by the first, the second
call concatenates the newly projected keys/values onto the cached ones along
the sequence axis (dim 2), so the returned key cache's sequence-axis length
is the sum `L1 + L2` of the two calls' input sequence lengths.  Hypotheses:
a well-formed module, the external kernels' and position encoder's documented
shape contracts, rectangular inputs, and masks the normalization loop exits
on. -/
theorem c2_self_cache_growth (m : MultiHeadAttention) (ext : Externals)
    (training isHpu : Bool)
    (q1 k1 v1 q2 k2 v2 : T3) (mask1 mask2 : Option MaskT)
    (pids1 pids2 : Option PosIds) (alg1 alg2 : Option String)
    (icm1 icm2 : Bool) {b Lq1 Lq2 L1 L2 : Nat}
    (hm : MHAwf m) (hext : RopeShapeOk ext) (hpe : PeOk m)
    (hmask1 : MaskOk mask1) (hmask2 : MaskOk mask2)
    (hb : 1 ≤ b) (hL1 : 1 ≤ L1)
    (hq1 : Shape3 q1 b Lq1 m.emb_dim) (hk1 : Shape3 k1 b L1 m.emb_dim)
    (hv1 : Shape3 v1 b L1 m.emb_dim)
    (hq2 : Shape3 q2 b Lq2 m.emb_dim) (hk2 : Shape3 k2 b L2 m.emb_dim)
    (hv2 : Shape3 v2 b L2 m.emb_dim) :
    ∃ m1 out1 ck1 cv1 m2 out2 kNew vNew,
      MultiHeadAttention.forward m ext training isHpu q1 k1 v1 mask1 pids1 alg1
          none true true icm1
        = Except.ok (m1, out1, some (ck1, cv1))
      ∧ MultiHeadAttention.forward m1 ext training isHpu q2 k2 v2 mask2 pids2 alg2
          (some (ck1, cv1)) true true icm2
        = Except.ok (m2, out2, some (cat2 ck1 kNew, cat2 cv1 vNew))
      ∧ Shape4 ck1 b m.kvheads L1 m.emb_kq_per_head
      ∧ Shape4 (cat2 ck1 kNew) b m.kvheads (L1 + L2) m.emb_kq_per_head
      ∧ Shape4 (cat2 cv1 vNew) b m.kvheads (L1 + L2) m.emb_v_per_head := by
  obtain ⟨rot2, out1, ck1, cv1, h1, hck1, hcv1⟩ :=
    forward_self_cache_nopast m ext training isHpu q1 k1 v1 mask1 pids1 alg1 icm1
      hm hext hpe hmask1 hq1 hk1 hv1
  have hnum : 0 < numel4 ck1 :=
    numel4_pos hck1 hb (hm.2.2.2.2.1) hL1 (hm.2.2.2.2.2.1)
  obtain ⟨rot3, out2, kNew, vNew, h2, hkN, hvN, hcat1, hcat2⟩ :=
    forward_self_cache_past { m with rotary_emb := rot2 } ext training isHpu q2 k2 v2
      mask2 pids2 alg2 icm2 ck1 cv1 hm hext hpe hmask2 hq2 hk2 hv2 hck1 hcv1 hnum
  exact ⟨{ m with rotary_emb := rot2 }, out1, ck1, cv1, _, out2, kNew, vNew,
    h1, h2, hck1, hcat1, hcat2⟩

/-- C2 witness: two one-token self-attention calls on a one-head module; the
first returns a cache of length 1, the second a cache of length 2. -/
theorem c2_self_cache_growth_witness :
    ∃ m1 out1 ck1 cv1 m2 out2 kNew vNew,
      MultiHeadAttention.forward (sampleMHA 1 1) idExternals false false
          [[[2]]] [[[2]]] [[[2]]] none none none none true true false
        = Except.ok (m1, out1, some (ck1, cv1))
      ∧ MultiHeadAttention.forward m1 idExternals false false
          [[[3]]] [[[3]]] [[[3]]] none none none (some (ck1, cv1)) true true false
        = Except.ok (m2, out2, some (cat2 ck1 kNew, cat2 cv1 vNew))
      ∧ Shape4 ck1 1 (sampleMHA 1 1).kvheads 1 (sampleMHA 1 1).emb_kq_per_head
      ∧ Shape4 (cat2 ck1 kNew) 1 (sampleMHA 1 1).kvheads (1 + 1)
          (sampleMHA 1 1).emb_kq_per_head
      ∧ Shape4 (cat2 cv1 vNew) 1 (sampleMHA 1 1).kvheads (1 + 1)
          (sampleMHA 1 1).emb_v_per_head :=
  @c2_self_cache_growth (sampleMHA 1 1) idExternals false false
    [[[2]]] [[[2]]] [[[2]]] [[[3]]] [[[3]]] [[[3]]] none none none none none none
    false false 1 1 1 1 1 (by decide) (fun b h s d t c sn p ht => ht)
    (by intro pe hpe; simp [sampleMHA] at hpe) (by decide) (by decide)
    (by decide) (by decide) (by decide) (by decide) (by decide) (by decide)
    (by decide) (by decide)

/-! ### C6 — atomic weight loading with unused-key detection -/

theorem ebind_err {ε α β : Type} (e : ε) (f : α → Except ε β) :
    (Except.error e : Except ε α) >>= f = Except.error e := rfl

theorem bind_eq_ok {ε α β : Type} {x : Except ε α} {f : α → Except ε β} {r : β}
    (h : (x >>= f) = Except.ok r) : ∃ a, x = Except.ok a ∧ f a = Except.ok r := by
  cases x with
  | error e =>
    rw [ebind_err] at h
    exact absurd h (by simp)
  | ok a => exact ⟨a, rfl, h⟩

theorem getSdWeight_ok {W : Type} {tv : List (String × W)} {us us2 : List String}
    {c kd : String} {w : W}
    (h : getSdWeight tv us c kd = Except.ok (w, us2)) :
    ∃ n, us2 = us ++ [n] ∧ n ∈ tv.map Prod.fst := by
  unfold getSdWeight at h
  split at h
  · rename_i kv heq
    simp only [Except.ok.injEq, Prod.mk.injEq] at h
    refine ⟨kv.1, h.2.symm, ?_⟩
    have hkv : kv ∈ tv.filter
        (fun kv0 => (c ++ "." ++ kd).data.isSuffixOf kv0.1.data) := by
      rw [heq]
      simp
    exact List.mem_map.mpr ⟨kv, List.mem_of_mem_filter hkv, rfl⟩
  · exact absurd h (by simp)

theorem extractWeights_ok_used {W : Type} {use_bias : Bool} {tv : List (String × W)}
    {res : (W × W × W × W) × (Option W × Option W × Option W × Option W) × List String}
    (h : extractWeights use_bias tv = Except.ok res) :
    res.2.2.length = (if use_bias then 8 else 4)
    ∧ ∀ u ∈ res.2.2, u ∈ tv.map Prod.fst := by
  unfold extractWeights at h
  obtain ⟨⟨w1, u1⟩, hp1, h⟩ := bind_eq_ok h
  obtain ⟨⟨w2, u2⟩, hp2, h⟩ := bind_eq_ok h
  obtain ⟨⟨w3, u3⟩, hp3, h⟩ := bind_eq_ok h
  obtain ⟨⟨w4, u4⟩, hp4, h⟩ := bind_eq_ok h
  obtain ⟨n1, rfl, hn1⟩ := getSdWeight_ok hp1
  obtain ⟨n2, rfl, hn2⟩ := getSdWeight_ok hp2
  obtain ⟨n3, rfl, hn3⟩ := getSdWeight_ok hp3
  obtain ⟨n4, rfl, hn4⟩ := getSdWeight_ok hp4
  cases use_bias with
  | false =>
    have h2 : Except.ok (((w1, w2, w3, w4) : W × W × W × W),
        ((none : Option W), (none : Option W), (none : Option W), (none : Option W)),
        ([] : List String) ++ [n1] ++ [n2] ++ [n3] ++ [n4])
        = (Except.ok res :
            Except LoadErr ((W × W × W × W)
              × (Option W × Option W × Option W × Option W) × List String)) := h
    rw [Except.ok.injEq] at h2
    subst h2
    refine ⟨by simp, ?_⟩
    intro u hu
    have hu2 : u = n1 ∨ u = n2 ∨ u = n3 ∨ u = n4 := by simpa using hu
    rcases hu2 with rfl | rfl | rfl | rfl <;> assumption
  | true =>
    obtain ⟨⟨w5, u5⟩, hp5, h⟩ := bind_eq_ok h
    obtain ⟨⟨w6, u6⟩, hp6, h⟩ := bind_eq_ok h
    obtain ⟨⟨w7, u7⟩, hp7, h⟩ := bind_eq_ok h
    obtain ⟨⟨w8, u8⟩, hp8, h⟩ := bind_eq_ok h
    obtain ⟨n5, rfl, hn5⟩ := getSdWeight_ok hp5
    obtain ⟨n6, rfl, hn6⟩ := getSdWeight_ok hp6
    obtain ⟨n7, rfl, hn7⟩ := getSdWeight_ok hp7
    obtain ⟨n8, rfl, hn8⟩ := getSdWeight_ok hp8
    have h2 : Except.ok (((w1, w2, w3, w4) : W × W × W × W),
        (some w5, some w6, some w7, some w8),
        ([] : List String) ++ [n1] ++ [n2] ++ [n3] ++ [n4] ++ [n5] ++ [n6] ++ [n7] ++ [n8])
        = (Except.ok res :
            Except LoadErr ((W × W × W × W)
              × (Option W × Option W × Option W × Option W) × List String)) := h
    rw [Except.ok.injEq] at h2
    subst h2
    refine ⟨by simp, ?_⟩
    intro u hu
    have hu2 : u = n1 ∨ u = n2 ∨ u = n3 ∨ u = n4 ∨ u = n5 ∨ u = n6 ∨ u = n7 ∨ u = n8 := by
      simpa using hu
    rcases hu2 with rfl | rfl | rfl | rfl | rfl | rfl | rfl | rfl <;> assumption

/-- C6: if the weight mapping holds any entry not consumed by the recognized
projection parameters (query/key/value/dense weights, plus biases when bias
is enabled), `load_weights` raises the unused-weights error carrying exactly
the unconsumed key names, and it raises before any shard copy happens: in
this state-passing embedding, the module parameters `p` are returned only
through `Except.ok`, and the error is produced by stage 2, before stage 3
builds the updated parameter record — so no parameter is modified.
Hypotheses: the extraction stage succeeded (each recognized pattern matched
exactly one entry) and the consumed keys are distinct (the recognized suffix
patterns are mutually exclusive). -/
theorem c6_load_weights_unused {W : Type} (shardF : W → W → Nat → List Nat → Bool → W)
    (use_bias : Bool) (pre_tp_nheads pre_tp_kvheads world_size : Nat) (p : TPAttnParams W)
    (tensor_values : List (String × W))
    (wts : W × W × W × W) (bs : Option W × Option W × Option W × Option W)
    (used_keys : List String)
    (hex : extractWeights use_bias tensor_values = Except.ok (wts, bs, used_keys))
    (hndU : used_keys.Nodup)
    (e : String) (he : e ∈ tensor_values.map Prod.fst) (heu : e ∉ used_keys) :
    TPMultiHeadAttention.load_weights shardF use_bias pre_tp_nheads pre_tp_kvheads world_size
        p tensor_values
      = Except.error (LoadErr.unusedKeys
          ((tensor_values.map Prod.fst).filter (fun name => ¬ used_keys.contains name)))
    ∧ ∀ x, (x ∈ (tensor_values.map Prod.fst).filter (fun name => ¬ used_keys.contains name))
        ↔ (x ∈ tensor_values.map Prod.fst ∧ x ∉ used_keys) := by
  obtain ⟨hlenU, hsubU⟩ := extractWeights_ok_used hex
  have hl : used_keys.length = if use_bias then 8 else 4 := hlenU
  have hsub2 : ∀ u ∈ used_keys ++ [e], u ∈ tensor_values.map Prod.fst := by
    intro u hu
    rcases List.mem_append.mp hu with h | h
    · exact hsubU u h
    · rwa [List.mem_singleton.mp h]
  have hnd2 : (used_keys ++ [e]).Nodup :=
    List.Nodup.append hndU (List.nodup_singleton e)
      (fun a ha hb => heu (List.mem_singleton.mp hb ▸ ha))
  have hcard : used_keys.length + 1 ≤ tensor_values.length := by
    have h1 : (used_keys ++ [e]).toFinset.card = used_keys.length + 1 := by
      rw [List.toFinset_card_of_nodup hnd2, List.length_append, List.length_singleton]
    have h2 : (used_keys ++ [e]).toFinset ⊆ (tensor_values.map Prod.fst).toFinset := by
      intro x hx
      rw [List.mem_toFinset] at hx ⊢
      exact hsub2 x hx
    have h3 := Finset.card_le_card h2
    have h4 := List.toFinset_card_le (tensor_values.map Prod.fst)
    rw [List.length_map] at h4
    omega
  have hgt : tensor_values.length > (if use_bias then 8 else 4) := by
    cases use_bias <;> simp only [if_true, if_false] at hl ⊢ <;> omega
  constructor
  · simp only [TPMultiHeadAttention.load_weights, hex, ebind_ok, if_pos hgt]
  · intro x
    simp only [List.mem_filter, decide_eq_true_eq]
    constructor
    · rintro ⟨hx, hnc⟩
      exact ⟨hx, fun hmem => hnc (List.elem_eq_true_of_mem hmem)⟩
    · rintro ⟨hx, hnm⟩
      refine ⟨hx, fun hc => hnm ?_⟩
      simpa [List.elem_iff] using hc

/-- C6 witness: a mapping with the four recognized weights plus one extra key
`foo.weight` makes loading fail with the unused-weights error whose key list
contains exactly `foo.weight`. -/
theorem c6_load_weights_unused_witness :
    TPMultiHeadAttention.load_weights (fun _ b0 _ _ _ => b0) false 1 1 1
        (⟨0, 0, 0, 0, none, none, none, none⟩ : TPAttnParams Nat)
        [("query.weight", 1), ("key.weight", 2), ("value.weight", 3),
         ("dense.weight", 4), ("foo.weight", 5)]
      = Except.error (LoadErr.unusedKeys
          (([("query.weight", (1 : Nat)), ("key.weight", 2), ("value.weight", 3),
             ("dense.weight", 4), ("foo.weight", 5)].map Prod.fst).filter
            (fun name => ¬ ["query.weight", "key.weight", "value.weight",
              "dense.weight"].contains name)))
    ∧ ∀ x, (x ∈ ([("query.weight", (1 : Nat)), ("key.weight", 2), ("value.weight", 3),
             ("dense.weight", 4), ("foo.weight", 5)].map Prod.fst).filter
            (fun name => ¬ ["query.weight", "key.weight", "value.weight",
              "dense.weight"].contains name))
        ↔ (x ∈ [("query.weight", (1 : Nat)), ("key.weight", 2), ("value.weight", 3),
             ("dense.weight", 4), ("foo.weight", 5)].map Prod.fst
           ∧ x ∉ ["query.weight", "key.weight", "value.weight", "dense.weight"]) :=
  c6_load_weights_unused (fun _ b0 _ _ _ => b0) false 1 1 1
    ⟨0, 0, 0, 0, none, none, none, none⟩
    [("query.weight", 1), ("key.weight", 2), ("value.weight", 3),
     ("dense.weight", 4), ("foo.weight", 5)]
    (1, 2, 3, 4) (none, none, none, none)
    ["query.weight", "key.weight", "value.weight", "dense.weight"]
    (by rfl) (by decide) "foo.weight" (by decide) (by decide)

/-! ### C10 — the prior cache is never mutated -/

theorem sread_append_lt (st0 : Store) (l : List Val) (r : Nat) (hr : r < st0.length) :
    sread (st0 ++ l) r = sread st0 r := by
  unfold sread
  exact List.getElem?_append_left hr

theorem sread_lt_length {st : Store} {r : Nat} {x : Val} (h : sread st r = some x) :
    r < st.length := by
  by_contra hc
  push_neg at hc
  unfold sread at h
  rw [List.getElem?_eq_none hc] at h
  exact absurd h (by simp)

/-- C10: a self-attention call with `use_cache = True` and a non-empty
caller-supplied prior cache leaves the caller's cache objects untouched and
returns freshly allocated cache tensors.  In the store-level embedding, the
call only allocates (`torch.cat` and every other operation on this path is
out-of-place; the in-place primitive `swrite` is never invoked), so every
pre-existing heap cell — in particular both prior-cache cells — still holds
exactly its pre-call contents, and the returned cache references are fresh
(at or beyond the old heap bound, hence distinct from every pre-existing
object). -/
theorem c10_cache_frame (m : MultiHeadAttention) (ext : Externals)
    (training isHpu : Bool) (st0 : Store) (rq rk rv rpk rpv : Nat)
    (mask : Option MaskT) (position_ids : Option PosIds) (attn_algorithm : Option String)
    (is_causal_mask : Bool) (qv kv0 vv : T3) (pk pv : T4)
    (hq : sread st0 rq = some (Val.v3 qv))
    (hk : sread st0 rk = some (Val.v3 kv0))
    (hv : sread st0 rv = some (Val.v3 vv))
    (hpk : sread st0 rpk = some (Val.v4 pk))
    (hpv : sread st0 rpv = some (Val.v4 pv))
    (hnum : 0 < numel4 pk)
    (hkvh : ¬ m.kvheads = 0)
    (hmask : MaskOk mask) :
    ∃ stN m2 rOut rck rcv,
      MultiHeadAttention.forwardStore m ext training isHpu st0 rq rk rv mask position_ids
          attn_algorithm (some (rpk, rpv)) true true is_causal_mask
        = Except.ok (stN, m2, rOut, some (rck, rcv))
      ∧ (∀ r, r < st0.length → sread stN r = sread st0 r)
      ∧ st0.length ≤ rck ∧ st0.length ≤ rcv
      ∧ sread stN rpk = some (Val.v4 pk)
      ∧ sread stN rpv = some (Val.v4 pv) := by
  obtain ⟨mo, hmo⟩ := maskNorm_ok hmask
  cases isHpu <;> cases hpec : m.position_encoder <;>
    by_cases hexp : m.nheads / m.kvheads = 1 <;>
      exact ⟨_, _, _, _, _, by
        simp only [MultiHeadAttention.forwardStore, hq, hk, hv, hpk, hpv, hmo, hpec,
          hnum, hkvh, hexp, salloc, ebind_ok, epure_def, Bool.true_or, if_true, if_false,
          ne_eq, not_true, not_false_iff, decide_True, Bool.and_self, ite_true, ite_false,
          decide_eq_true_eq, List.append_assoc, List.cons_append, List.nil_append]
        rfl,
        fun r hr => sread_append_lt st0 _ r hr,
        by simp only [List.length_append, List.length_cons, List.length_nil]; omega,
        by simp only [List.length_append, List.length_cons, List.length_nil]; omega,
        (sread_append_lt st0 _ rpk (sread_lt_length hpk)).trans hpk,
        (sread_append_lt st0 _ rpv (sread_lt_length hpv)).trans hpv⟩

/-- C10 witness: a three-cell heap (the input tensor and a one-element prior
cache pair); the self-attention call succeeds, leaves all three pre-existing
cells untouched, and returns fresh cache references. -/
theorem c10_cache_frame_witness :
    ∃ stN m2 rOut rck rcv,
      MultiHeadAttention.forwardStore (sampleMHA 1 1) idExternals false false
          [Val.v3 [[[1]]], Val.v4 [[[[9]]]], Val.v4 [[[[8]]]]] 0 0 0 none none
          none (some (1, 2)) true true false
        = Except.ok (stN, m2, rOut, some (rck, rcv))
      ∧ (∀ r, r < ([Val.v3 [[[1]]], Val.v4 [[[[9]]]], Val.v4 [[[[8]]]]] : Store).length →
          sread stN r = sread [Val.v3 [[[1]]], Val.v4 [[[[9]]]], Val.v4 [[[[8]]]]] r)
      ∧ ([Val.v3 [[[1]]], Val.v4 [[[[9]]]], Val.v4 [[[[8]]]]] : Store).length ≤ rck
      ∧ ([Val.v3 [[[1]]], Val.v4 [[[[9]]]], Val.v4 [[[[8]]]]] : Store).length ≤ rcv
      ∧ sread stN 1 = some (Val.v4 [[[[9]]]])
      ∧ sread stN 2 = some (Val.v4 [[[[8]]]]) :=
  c10_cache_frame (sampleMHA 1 1) idExternals false false
    [Val.v3 [[[1]]], Val.v4 [[[[9]]]], Val.v4 [[[[8]]]]] 0 0 0 1 2 none none none false
    [[[1]]] [[[1]]] [[[1]]] [[[[9]]]] [[[[8]]]]
    (by rfl) (by rfl) (by rfl) (by rfl) (by rfl) (by decide) (by decide) (by decide)
